import Mathlib

/-
Shallow embedding of homeassistant/components/sonos/media_player.py:
the group-topology and playback-state synchronization engine.

Devices are identified by their unique id (modelled as Nat).  A global
state holds the registry of known entities (hass.data[DATA_SONOS].entities)
and, per uid, the mutable fields of the corresponding SonosEntity.
Values polled from or pushed by the physical device (the Device Proxy of
the spec) enter the model as explicit inputs; commands issued to a device
are recorded in an explicit command trace.  Wall-clock times and media
positions are rationals.
-/

abbrev Uid := Nat

/-- A Sonos favorite, reduced to the fields the module reads
(fav.title and fav.reference.get_uri()). -/
structure Fav where
  title : String
  uri : String
deriving Repr, DecidableEq

/-- The mutable per-entity fields of SonosEntity (its underscore attributes). -/
structure Device where
  coordinator : Option Uid := none
  sonosGroup : List Uid := []
  status : Option String := none
  shuffle : Option Bool := none
  playerVolume : Option Int := none
  playerMuted : Option Bool := none
  mediaDuration : Option Rat := none
  mediaPosition : Option Rat := none
  mediaPositionUpdatedAt : Option Rat := none
  mediaImageUrl : Option String := none
  mediaArtist : Option String := none
  mediaAlbumName : Option String := none
  mediaTitle : Option String := none
  sourceName : Option String := none
  nightSound : Option Bool := none
  speechEnhance : Option Bool := none
  zoneName : String := ""
  modelName : String := ""
  available : Bool := true
  receivesEvents : Bool := false
  subscriptions : Nat := 0
  favorites : List Fav := []
  socoSnapshot : Bool := false
  snapshotGroup : Option (List Uid) := none
  zgsCache : Bool := true
deriving Repr, DecidableEq

instance : Inhabited Device := ⟨{}⟩

/-- Global state: the entity registry plus each entity's fields. -/
structure SonosState where
  registry : List Uid
  dev : Uid → Device

instance : Inhabited SonosState := ⟨⟨[], fun _ => default⟩⟩

def setDev (s : SonosState) (u : Uid) (d : Device) : SonosState :=
  { registry := s.registry, dev := fun v => if v = u then d else s.dev v }

theorem setDev_registry (s : SonosState) (u : Uid) (d : Device) :
    (setDev s u d).registry = s.registry := rfl

theorem setDev_dev_self (s : SonosState) (u : Uid) (d : Device) :
    (setDev s u d).dev u = d := by simp [setDev]

theorem setDev_dev_other (s : SonosState) (u v : Uid) (d : Device) (h : v ≠ u) :
    (setDev s u d).dev v = s.dev v := by simp [setDev, h]

/-- Commands issued through the Device Proxy, plus scheduled jobs and log
lines, recorded as an explicit trace. -/
inductive Cmd where
  | pause (u : Uid)
  | socoJoin (slave master : Uid)
  | socoUnjoin (u : Uid)
  | waitGroups (gs : List (List Uid))
  | snapRestore (u : Uid)
  | logWarn (u : Uid)
  | unsubscribe (u : Uid)
  | scheduleGroupUpdate (u : Uid)
deriving Repr, DecidableEq

/-- Python truthiness of an optional string (None and the empty string are
falsy). -/
def truthyS : Option String → Bool
  | none => false
  | some s => s ≠ ""

/-- The check `value not in ('', 'NOT_IMPLEMENTED', None)` used on raw
device fields. -/
def notSentinel : Option String → Bool
  | none => false
  | some s => s ≠ "" && s ≠ "NOT_IMPLEMENTED"

/-- Embeds _is_radio_uri. -/
def is_radio_uri (uri : String) : Bool :=
  ["x-rincon-mp3radio:", "x-sonosapi-stream:", "x-sonosapi-radio:",
   "x-sonosapi-hls:", "hls-radio:"].any (fun p => uri.startsWith p)

/-- Track info as returned by soco.get_current_track_info, with the
time-span fields already put through _timespan_secs by the proxy
boundary. -/
structure TrackInfo where
  uri : String := ""
  duration : Option Rat := none
  albumArt : Option String := none
  artist : Option String := none
  album : Option String := none
  title : Option String := none
deriving Repr, DecidableEq

/-- Raw data the radio branch reads: GetMediaInfo fields, the title parsed
out of the DIDL metadata by the external XML library, and the artwork URL
produced by _radio_artwork (URL templating is outside the engine per the
spec scope, so its result is an input). -/
structure RadioInfo where
  currentUri : String := ""
  currentUriMetaData : Option String := none
  mdTitle : Option String := none
  artworkResult : Option String := none
deriving Repr, DecidableEq

/-- The current_track_meta_data member of a transport event's variables. -/
structure TrackMeta where
  radioShow : String
deriving Repr, DecidableEq

/-- The variables dict of a transport event (none models a falsy dict). -/
structure TransportVars where
  currentTrackMetaData : Option TrackMeta := none
deriving Repr, DecidableEq

/-- Everything update_media reads from the device in one pass. -/
structure MediaPoll where
  transportState : String := ""
  shuffle : Bool := false
  isPlayingTv : Bool := false
  isPlayingLineIn : Bool := false
  track : TrackInfo := {}
  relTime : Option Rat := none
  radio : RadioInfo := {}
  now : Rat := 0
deriving Repr, DecidableEq

/-- Embeds SonosEntity.update_media_linein. -/
def update_media_linein (source : String) (d : Device) : Device :=
  { d with
    mediaDuration := none
    mediaPosition := none
    mediaPositionUpdatedAt := none
    mediaImageUrl := none
    mediaArtist := some source
    mediaAlbumName := none
    mediaTitle := none
    sourceName := some source }

/-- Embeds SonosEntity.update_media_radio. -/
def update_media_radio (vars : Option TransportVars) (track : TrackInfo)
    (radio : RadioInfo) (d : Device) : Device :=
  let d1 := { d with
    mediaDuration := none
    mediaPosition := none
    mediaPositionUpdatedAt := none
    mediaImageUrl := radio.artworkResult
    mediaArtist := track.artist
    mediaAlbumName := none
    mediaTitle := track.title }
  let d2 :=
    if truthyS d1.mediaArtist && truthyS d1.mediaTitle then
      { d1 with mediaArtist := some (d1.mediaArtist.getD "" ++ " - " ++ d1.mediaTitle.getD "") }
    else
      match vars with
      | some vs =>
        match vs.currentTrackMetaData with
        | some md =>
          { d1 with mediaArtist := some ((md.radioShow.splitOn ",").headD "") }
        | none => d1
      | none => d1
  let d3 :=
    if notSentinel radio.currentUriMetaData then
      if notSentinel radio.mdTitle then { d2 with mediaTitle := radio.mdTitle }
      else d2
    else d2
  let d4 :=
    if truthyS d3.mediaArtist && truthyS d3.mediaTitle then
      let artist := d3.mediaArtist.getD ""
      let trim := d3.mediaTitle.getD "" ++ " - "
      let chars := min artist.length trim.length
      if (artist.take chars).toUpper = (trim.take chars).toUpper then
        { d3 with mediaArtist := some (artist.drop chars) }
      else d3
    else d3
  let src := d4.favorites.foldl
    (fun acc f => if f.uri = radio.currentUri then some f.title else acc) none
  { d4 with sourceName := src }

/-- The position-jumped comparison of update_media_music: when a raw
position, a recorded position and its timestamp are all present, whether
the raw position differs from the extrapolated one by more than 1.5 s. -/
def driftJump (relTime pos upd : Option Rat) (now : Rat) : Bool :=
  match relTime, pos, upd with
  | some r, some p, some t => decide (|p + (now - t) - r| > 3 / 2)
  | _, _, _ => false

/-- The position-jumped block of update_media_music before or-ing: none
models the TypeError of subtracting from a missing position timestamp,
which the code never reaches because a recorded position always comes with
a timestamp. -/
def musicJump (up1 : Bool) (relTime pos upd : Option Rat) (now : Rat) :
    Option Bool :=
  match relTime, pos with
  | some r, some p =>
    match upd with
    | some t => some (up1 || decide (|p + (now - t) - r| > 3 / 2))
    | none => none
  | _, _ => some up1

/-- The update_media_position computation of update_media_music: the flag
passed in (transport state changed) extended by the started/stopped
reporting checks and the extrapolation comparison. -/
def musicUpdateFlag (updatePos : Bool) (relTime : Option Rat) (now : Rat)
    (d : Device) : Option Bool :=
  let up1 := updatePos
    || (relTime.isNone && d.mediaPosition.isSome)
    || (relTime.isSome && d.mediaPosition.isNone)
  musicJump up1 relTime d.mediaPosition d.mediaPositionUpdatedAt now

/-- Embeds SonosEntity.update_media_music. -/
def update_media_music (updatePos : Bool) (track : TrackInfo)
    (relTime : Option Rat) (now : Rat) (d : Device) : Option Device :=
  let d1 := { d with mediaDuration := track.duration }
  (musicUpdateFlag updatePos relTime now d1).map (fun up =>
    let d2 :=
      if up then
        { d1 with mediaPosition := relTime, mediaPositionUpdatedAt := some now }
      else d1
    { d2 with
      mediaImageUrl := track.albumArt
      mediaArtist := track.artist
      mediaAlbumName := track.album
      mediaTitle := track.title
      sourceName := none })

/-- Embeds SonosEntity.update_media.  Returns the new state and the list of
entities scheduled for a state-visibility refresh (self first, then the
followers whose coordinator is self); none models an uncaught exception. -/
def update_media (s : SonosState) (self : Uid) (poll : MediaPoll)
    (vars : Option TransportVars) : Option (SonosState × List Uid) :=
  let newStatus := poll.transportState
  if newStatus = "TRANSITIONING" then some (s, [])
  else
    let d := s.dev self
    let d1 := { d with shuffle := some poll.shuffle }
    let dOpt : Option Device :=
      if poll.isPlayingTv then some (update_media_linein "TV" d1)
      else if poll.isPlayingLineIn then some (update_media_linein "Line-in" d1)
      else if is_radio_uri poll.track.uri then
        some (update_media_radio vars poll.track poll.radio d1)
      else
        update_media_music (decide (some newStatus ≠ d1.status)) poll.track
          poll.relTime poll.now d1
    dOpt.map (fun d2 =>
      let s2 := setDev s self { d2 with status := some newStatus }
      let slaves := s2.registry.filter
        (fun u => (s2.dev u).coordinator = some self)
      (s2, self :: slaves))

/-- Exceptions the module distinguishes: a UPnP fault carrying a condition
code (SoCoUPnPException), any other SoCo device fault (SoCoException), and
every exception that is not a device fault. -/
inductive PyExc where
  | upnp (code : String)
  | soco
  | other (name : String)
deriving Repr, DecidableEq

/-- Embeds the UPNP_ERRORS_TO_IGNORE constant. -/
def UPNP_ERRORS_TO_IGNORE : List String := ["701", "711", "712"]

/-- Embeds the soco_error decorator: the wrapped body either returns a
value or raises; the wrapper result carries the returned value (none when
the body raised a caught device fault) and the emitted log lines. -/
def socoError {α : Type} (errorcodes : List String) (opName : String)
    (body : Except PyExc α) : Except PyExc (Option α × List String) :=
  match body with
  | Except.ok a => Except.ok (some a, [])
  | Except.error (PyExc.upnp code) =>
    if code ∈ errorcodes then Except.ok (none, [])
    else Except.ok (none, ["Error on " ++ opName])
  | Except.error PyExc.soco => Except.ok (none, ["Error on " ++ opName])
  | Except.error (PyExc.other n) => Except.error (PyExc.other n)

/-- Embeds _get_entity_from_soco_uid: resolve a uid against the registry. -/
def getEntityFromSocoUid (s : SonosState) (uid : Uid) : Option Uid :=
  if s.registry.contains uid then some uid else none

/-- A zone-group-topology event.  zoneGroup is the
zone_player_uui_ds_in_group attribute: none when the attribute is absent
(hasattr fails), some [] when it is present but empty (falsy string), and
otherwise the comma-separated uid list. -/
structure TopoEvent where
  zoneGroup : Option (List Uid)
deriving Repr, DecidableEq

/-- Embeds update_groups._get_soco_group: the poll fallback.  The input is
the device's live group view (coordinator uid and member uids) or none
when the view is missing, its coordinator is falsy, or the request raised;
in that case the device falls back to a one-member group of itself. -/
def getSocoGroup (self : Uid) (view : Option (Uid × List Uid)) : List Uid :=
  match view with
  | some (coord, members) => coord :: members.filter (fun u => u ≠ coord)
  | none => [self]

/-- Embeds update_groups._async_extract_group: use the event's member-uid
list when it is truthy, otherwise poll. -/
def resolveGroup (self : Uid) (ev : Option TopoEvent)
    (view : Option (Uid × List Uid)) : List Uid :=
  match ev with
  | some e =>
    match e.zoneGroup with
    | some l => if l ≠ [] then l else getSocoGroup self view
    | none => getSocoGroup self view
  | none => getSocoGroup self view

/-- The per-slave update of _async_regroup. -/
def regroupTarget (d : Device) (self : Uid) (resolved : List Uid) : Device :=
  { d with coordinator := some self, sonosGroup := resolved }

/-- The slave loop of _async_regroup (over group[1:]). -/
def regroupLoop (self : Uid) (resolved : List Uid) :
    SonosState → List Uid → SonosState
  | s, [] => s
  | s, u :: rest =>
    regroupLoop self resolved
      (if s.registry.contains u then
        setDev s u (regroupTarget (s.dev u) self resolved)
       else s) rest

/-- Embeds update_groups._async_regroup: rebuild the internal group layout
from an applied uid list. -/
def asyncRegroup (s : SonosState) (self : Uid) (group : List Uid) :
    SonosState :=
  let resolved := group.filter (fun u => s.registry.contains u)
  let s1 := setDev s self
    { s.dev self with coordinator := none, sonosGroup := resolved }
  regroupLoop self resolved s1 (group.drop 1)

/-- Embeds update_groups._async_handle_group_event: resolve the group and
apply it (regrouping and notifying all convergence waiters) only when this
device is the first entry.  The Bool records whether notify_all ran. -/
def handleGroupEvent (s : SonosState) (self : Uid) (ev : Option TopoEvent)
    (view : Option (Uid × List Uid)) : SonosState × Bool :=
  let group := resolveGroup self ev view
  if group.head? = some self then (asyncRegroup s self group, true)
  else (s, false)

/-- Embeds SonosEntity.update_groups, composed with the async job it
schedules: on an event, mark the channel as delivering, drop events that
lack the group attribute, and otherwise run the handler. -/
def update_groups (s : SonosState) (self : Uid) (ev : Option TopoEvent)
    (view : Option (Uid × List Uid)) : SonosState × Bool :=
  match ev with
  | some e =>
    let s1 := setDev s self { s.dev self with receivesEvents := true }
    match e.zoneGroup with
    | none => (s1, false)
    | some _ => handleGroupEvent s1 self (some e) view
  | none => handleGroupEvent s self none view

/-- Embeds wait_for_groups._test_groups for one target group.  An error
models the IndexError raised by group[0] or current_group[0] on an empty
list. -/
def testGroup (s : SonosState) (g : List Uid) : Except Unit Bool :=
  match g with
  | [] => Except.error ()
  | coord :: slaves =>
    match (s.dev coord).sonosGroup with
    | [] => Except.error ()
    | c0 :: ctail =>
      if coord ≠ c0 then Except.ok false
      else Except.ok (slaves.all (fun x => ctail.contains x)
        && ctail.all (fun x => slaves.contains x))

/-- Embeds wait_for_groups._test_groups: groups are checked in order and
the first mismatch stops the scan. -/
def testGroups (s : SonosState) : List (List Uid) → Except Unit Bool
  | [] => Except.ok true
  | g :: rest =>
    match testGroup s g with
    | Except.error e => Except.error e
    | Except.ok false => Except.ok false
    | Except.ok true => testGroups s rest

/-- The wait/notify loop of wait_for_groups.  The observed list carries the
global state at each successive topology notification; exhausting it
models the 5-second timeout elapsing. -/
def waitLoop (groups : List (List Uid)) :
    SonosState → List SonosState → Except Unit (SonosState × Bool)
  | s, [] =>
    match testGroups s groups with
    | Except.error e => Except.error e
    | Except.ok true => Except.ok (s, true)
    | Except.ok false => Except.ok (s, false)
  | s, s2 :: rest =>
    match testGroups s groups with
    | Except.error e => Except.error e
    | Except.ok true => Except.ok (s, true)
    | Except.ok false => waitLoop groups s2 rest

/-- The final loop of wait_for_groups: clear every registered entity's
cached raw topology (soco._zgs_cache). -/
def clearZgsCaches (s : SonosState) : SonosState :=
  s.registry.foldl
    (fun acc u => setDev acc u { acc.dev u with zgsCache := false }) s

/-- Result of a convergence wait: the state on return, whether the target
shape was reached (false means the timeout elapsed), and the log lines. -/
structure WaitResult where
  state : SonosState
  converged : Bool
  logs : List String

/-- Embeds SonosEntity.wait_for_groups. -/
def wait_for_groups (s : SonosState) (groups : List (List Uid))
    (observed : List SonosState) : Except Unit WaitResult :=
  match waitLoop groups s observed with
  | Except.error e => Except.error e
  | Except.ok (sW, b) =>
    let logs := if b then [] else ["Timeout waiting for target groups"]
    Except.ok ⟨clearZgsCaches sW, b, logs⟩

/-- Embeds SonosEntity.unjoin (the local effects: the unjoin command plus
dropping the coordinator pointer). -/
def unjoinEntity (s : SonosState) (u : Uid) : SonosState × List Cmd :=
  (setDev s u { s.dev u with coordinator := none }, [Cmd.socoUnjoin u])

/-- The slave loop of SonosEntity.join, threading state, trace and the
group list being built. -/
def joinLoop (self : Uid) :
    SonosState × List Cmd × List Uid → List Uid →
    SonosState × List Cmd × List Uid
  | acc, [] => acc
  | (st, tr, g), m :: rest =>
    if m ≠ self then
      joinLoop self
        (setDev st m { st.dev m with coordinator := some self },
         tr ++ [Cmd.socoJoin m self],
         if g.contains m then g else g ++ [m]) rest
    else joinLoop self (st, tr, g) rest

/-- Embeds SonosEntity.join: returns the new state, the issued commands
and the best-effort group list the method returns. -/
def joinEntity (s : SonosState) (self : Uid) (slaves : List Uid) :
    SonosState × List Cmd × List Uid :=
  if (s.dev self).coordinator.isSome then
    let r := unjoinEntity s self
    joinLoop self (r.1, r.2, [self]) slaves
  else
    joinLoop self (s, [], (s.dev self).sonosGroup) slaves

/-- Embeds the is_coordinator property. -/
def isCoordinator (s : SonosState) (u : Uid) : Bool :=
  (s.dev u).coordinator.isNone

/-- Embeds the state property body (mapping of _status to the
host-application state constants). -/
def stateFromStatus : Option String → String
  | some st =>
    if st = "PAUSED_PLAYBACK" || st = "STOPPED" then "paused"
    else if st = "PLAYING" || st = "TRANSITIONING" then "playing"
    else if st = "OFF" then "off"
    else "idle"
  | none => "idle"

/-- Embeds the state property together with its soco_coordinator wrapper:
a follower reports its coordinator's state. -/
def entityState (s : SonosState) (u : Uid) : String :=
  match (s.dev u).coordinator with
  | none => stateFromStatus (s.dev u).status
  | some c => stateFromStatus (s.dev c).status

/-- Embeds SonosEntity.snapshot for one entity. -/
def snapshotEntity (withGroup : Bool) (s : SonosState) (u : Uid) :
    SonosState :=
  setDev s u
    { s.dev u with
      socoSnapshot := true
      snapshotGroup := if withGroup then some (s.dev u).sonosGroup else none }

/-- Embeds SonosEntity.restore for one entity.  applyOk tells whether
applying the captured state to the device succeeded; when it fails (also
when there is no snapshot object at all, which raises the caught
AttributeError) a warning is logged.  Both snapshot fields are cleared on
every path. -/
def restoreEntity (s : SonosState) (applyOk : Uid → Bool) (u : Uid) :
    SonosState × List Cmd :=
  let d := s.dev u
  let tr :=
    (if d.socoSnapshot then [Cmd.snapRestore u] else [])
      ++ (if d.socoSnapshot && applyOk u then [] else [Cmd.logWarn u])
  (setDev s u { d with socoSnapshot := false, snapshotGroup := none }, tr)

/-- Insertion into a Python set, determinized as an ordered
duplicate-free list. -/
def pysetInsert (l : List Uid) (u : Uid) : List Uid :=
  if l.contains u then l else l ++ [u]

/-- A Python set built from a list, determinized in first-occurrence
order. -/
def pyset (l : List Uid) : List Uid := l.foldl pysetInsert []

/-- The snapshot filter of restore_multi: only entities holding a live
snapshot are selected. -/
def restoreMultiBase (s : SonosState) (entities0 : List Uid) : List Uid :=
  (pyset entities0).filter (fun e => (s.dev e).socoSnapshot)

/-- The affected-player computation of restore_multi: the snapshot-holding
entities, expanded (when with_group) by every device appearing in a
selected entity's snapshotted group. -/
def affectedSet (s : SonosState) (entities0 : List Uid) (withGroup : Bool) :
    List Uid :=
  let base := restoreMultiBase s entities0
  if withGroup then
    base.foldl
      (fun acc e =>
        match (s.dev e).snapshotGroup with
        | some g => if g ≠ [] then g.foldl pysetInsert acc else acc
        | none => acc) base
  else base

/-- The unjoin condition of restore_multi._restore_groups: the live group
differs from the snapshotted one (None compares unequal to any list). -/
def snapGroupDiffers (d : Device) : Bool :=
  match d.snapshotGroup with
  | some g => decide (g ≠ d.sonosGroup)
  | none => true

/-- The pause loop opening restore_multi._restore_groups: a pause command
for every affected entity that is a coordinator whose state is playing. -/
def pausePhase (s : SonosState) (entities : List Uid) : List Cmd :=
  (entities.filter
    (fun e => isCoordinator s e && entityState s e = "playing")).map Cmd.pause

/-- The slave loop of restore_multi._restore_groups: unjoin every follower
whose live group differs from its snapshotted group. -/
def unjoinSlavesLoop : SonosState × List Cmd → List Uid → SonosState × List Cmd
  | acc, [] => acc
  | acc, e :: rest =>
    unjoinSlavesLoop
      (if snapGroupDiffers (acc.1.dev e) then
        ((unjoinEntity acc.1 e).1, acc.2 ++ (unjoinEntity acc.1 e).2)
       else acc) rest

/-- The re-join loop of restore_multi._restore_groups: every entity whose
truthy snapshotted group starts with itself joins that group, which is
also collected for the convergence waiter. -/
def rejoinLoop :
    SonosState × List Cmd × List (List Uid) → List Uid →
    SonosState × List Cmd × List (List Uid)
  | acc, [] => acc
  | (st, tr, gs), e :: rest =>
    rejoinLoop
      (match (st.dev e).snapshotGroup with
       | some g =>
         if g ≠ [] ∧ g.head? = some e then
           ((joinEntity st e g).1, tr ++ (joinEntity st e g).2.1, gs ++ [g])
         else (st, tr, gs)
       | none => (st, tr, gs)) rest

/-- Embeds restore_multi._restore_groups: pause playing coordinators,
then (with_group) unjoin diverged followers and re-join each snapshotted
group whose first member is the entity itself.  Returns the new state, the
issued commands and the target groups passed on to the convergence
waiter. -/
def restoreGroups (s : SonosState) (entities : List Uid) (withGroup : Bool) :
    SonosState × List Cmd × List (List Uid) :=
  let pauseCmds := pausePhase s entities
  if withGroup then
    let slaves := entities.filter (fun e => !(isCoordinator s e))
    let r1 := unjoinSlavesLoop (s, []) slaves
    let r2 := rejoinLoop (r1.1, r1.2, []) entities
    (r2.1, pauseCmds ++ r2.2.1, r2.2.2)
  else (s, pauseCmds, [])

/-- One pass of restore_multi._restore_players: restore every entity
satisfying the condition, evaluated against the current state as the
Python generator does. -/
def restorePass (cond : SonosState → Uid → Bool) (applyOk : Uid → Bool) :
    SonosState × List Cmd → List Uid → SonosState × List Cmd
  | acc, [] => acc
  | acc, e :: rest =>
    restorePass cond applyOk
      (if cond acc.1 e then
        ((restoreEntity acc.1 applyOk e).1,
          acc.2 ++ (restoreEntity acc.1 applyOk e).2)
       else acc) rest

/-- Embeds restore_multi._restore_players: followers first, then
coordinators. -/
def restorePlayers (s : SonosState) (ents : List Uid) (applyOk : Uid → Bool) :
    SonosState × List Cmd :=
  restorePass (fun st e => isCoordinator st e) applyOk
    (restorePass (fun st e => !(isCoordinator st e)) applyOk (s, []) ents) ents

/-- Embeds SonosEntity.restore_multi: select and expand the affected
players, run _restore_groups, block on the convergence waiter (observed
carries the states at the notifications that arrive while waiting), then
run _restore_players.  The trace keeps the three phases in order. -/
def restoreMulti (s : SonosState) (entities0 : List Uid) (withGroup : Bool)
    (observed : List SonosState) (applyOk : Uid → Bool) :
    Except Unit (SonosState × List Cmd) :=
  let aff := affectedSet s entities0 withGroup
  let rg := restoreGroups s aff withGroup
  match wait_for_groups rg.1 rg.2.2 observed with
  | Except.error e => Except.error e
  | Except.ok w =>
    let rp := restorePlayers w.state aff applyOk
    Except.ok (rp.1, rg.2.1 ++ (Cmd.waitGroups rg.2.2 :: rp.2))

/-- Poll results consumed by _set_basic_information and update_volume when
an entity (re)initializes or polls without events. -/
structure BasicInfo where
  zoneName : String := ""
  modelName : String := ""
  shuffle : Bool := false
  volume : Int := 0
  muted : Bool := false
  nightMode : Bool := false
  dialogMode : Bool := false
  favorites : List Fav := []
deriving Repr, DecidableEq

/-- Embeds SonosEntity.update: the reachability probe drives the
available transitions; a device that became unreachable releases its
subscriptions and resets its local state, a device that became reachable
re-reads basic info and resubscribes (scheduling a group rebuild for every
registered entity), and an available device with a dead event channel
falls back to polling. -/
def updateEntity (s : SonosState) (self : Uid) (probeOk : Bool)
    (basic : BasicInfo) (poll : MediaPoll) : Option (SonosState × List Cmd) :=
  let d := s.dev self
  if d.available ≠ probeOk then
    if probeOk then
      let d2 := { d with
        available := true
        zoneName := basic.zoneName
        modelName := basic.modelName
        shuffle := some basic.shuffle
        playerVolume := some basic.volume
        playerMuted := some basic.muted
        nightSound := some basic.nightMode
        speechEnhance := some basic.dialogMode
        favorites := basic.favorites
        receivesEvents := false
        subscriptions := d.subscriptions + 4 }
      some (setDev s self d2, s.registry.map Cmd.scheduleGroupUpdate)
    else
      let cmds := List.replicate d.subscriptions (Cmd.unsubscribe self)
      let d2 := { d with
        available := false
        subscriptions := 0
        playerVolume := none
        playerMuted := none
        status := some "OFF"
        coordinator := none
        mediaDuration := none
        mediaPosition := none
        mediaPositionUpdatedAt := none
        mediaImageUrl := none
        mediaArtist := none
        mediaAlbumName := none
        mediaTitle := none
        sourceName := none }
      some (setDev s self d2, cmds)
  else if probeOk && !d.receivesEvents then
    let s1 := setDev s self
      { d with
        playerVolume := some basic.volume
        playerMuted := some basic.muted
        nightSound := some basic.nightMode
        speechEnhance := some basic.dialogMode }
    if isCoordinator s1 self then
      match update_media s1 self poll none with
      | some r => some (r.1, [Cmd.scheduleGroupUpdate self])
      | none => none
    else some (s1, [Cmd.scheduleGroupUpdate self])
  else some (s, [])

/-- The overwrite condition of the position drift correction as the spec
states it: raw position differs from the extrapolated position by more
than 1.5 seconds, or the raw position changed between none and non-none
relative to the recorded one, or the transport status just changed. -/
def specDriftCondition (d : Device) (newStatus : String) (relTime : Option Rat)
    (now : Rat) : Bool :=
  decide (some newStatus ≠ d.status)
  || (relTime.isNone && d.mediaPosition.isSome)
  || (relTime.isSome && d.mediaPosition.isNone)
  || driftJump relTime d.mediaPosition d.mediaPositionUpdatedAt now

/-- Claim C7: a transport update reporting TRANSITIONING makes update_media
return without touching any recorded state and without scheduling any
state-visibility refresh. -/
theorem update_media_transitioning_noop (s : SonosState) (self : Uid)
    (poll : MediaPoll) (vars : Option TransportVars)
    (h : poll.transportState = "TRANSITIONING") :
    update_media s self poll vars = some (s, []) := by
  simp [update_media, h]

def wS7 : SonosState :=
  ⟨[0], fun _ => { status := some "PLAYING", mediaTitle := some "t" }⟩

def pollT7 : MediaPoll := { transportState := "TRANSITIONING" }

theorem update_media_transitioning_noop_witness :
    pollT7.transportState = "TRANSITIONING" ∧
    update_media wS7 0 pollT7 none = some (wS7, []) :=
  ⟨rfl, update_media_transitioning_noop wS7 0 pollT7 none rfl⟩

/-- Claim C8 counterexample: an exception that is not a SoCo device fault
(here the connection error a dropped device produces) propagates straight
through the soco_error wrapper, so the wrapper does let exceptions reach
its caller. -/
theorem socoError_other_exception_propagates :
    socoError UPNP_ERRORS_TO_IGNORE "join"
      (Except.error (PyExc.other "RequestException") : Except PyExc (List Uid))
      = Except.error (PyExc.other "RequestException") := rfl

/-- Claim C8 (amended): the soco_error wrapper never lets a SoCo device
fault propagate: a UPnP fault whose condition code is in the supplied
ignorable set is swallowed with no log entry, every other device fault is
logged with the operation name and the wrapper returns normally with no
result; exceptions that are not device faults propagate unchanged, and the
ignorable set supplied by the module is 701/711/712. -/
theorem socoError_spec {α : Type} (codes : List String) (op : String)
    (code : String) (a : α) (n : String) :
    socoError codes op (Except.ok a) = Except.ok (some a, []) ∧
    socoError codes op (Except.error (PyExc.upnp code) : Except PyExc α) =
      (if code ∈ codes then Except.ok (none, [])
       else Except.ok (none, ["Error on " ++ op])) ∧
    socoError codes op (Except.error PyExc.soco : Except PyExc α) =
      Except.ok (none, ["Error on " ++ op]) ∧
    socoError codes op (Except.error (PyExc.other n) : Except PyExc α) =
      Except.error (PyExc.other n) ∧
    "701" ∈ UPNP_ERRORS_TO_IGNORE ∧ "711" ∈ UPNP_ERRORS_TO_IGNORE ∧
    "712" ∈ UPNP_ERRORS_TO_IGNORE := by
  refine ⟨rfl, rfl, rfl, rfl, by decide, by decide, by decide⟩

/-- The drift-correction overwrite condition with the transport-state flag
abstracted, used to factor the case analysis. -/
def driftFlag (updatePos : Bool) (relTime : Option Rat) (now : Rat)
    (d : Device) : Bool :=
  updatePos
  || (relTime.isNone && d.mediaPosition.isSome)
  || (relTime.isSome && d.mediaPosition.isNone)
  || driftJump relTime d.mediaPosition d.mediaPositionUpdatedAt now

theorem specDriftCondition_eq (d : Device) (ns : String) (relTime : Option Rat)
    (now : Rat) :
    specDriftCondition d ns relTime now =
      driftFlag (decide (some ns ≠ d.status)) relTime now d := rfl

theorem driftFlag_only_position (up : Bool) (relTime : Option Rat) (now : Rat)
    (d d2 : Device) (hp : d2.mediaPosition = d.mediaPosition)
    (ht : d2.mediaPositionUpdatedAt = d.mediaPositionUpdatedAt) :
    driftFlag up relTime now d2 = driftFlag up relTime now d := by
  simp only [driftFlag, hp, ht]

theorem musicJump_eq (up1 : Bool) (relTime pos upd : Option Rat) (now : Rat)
    (hInv : pos.isSome = true → upd.isSome = true) :
    musicJump up1 relTime pos upd now =
      some (up1 || driftJump relTime pos upd now) := by
  rcases relTime with _ | r <;> rcases pos with _ | p
  · simp [musicJump, driftJump]
  · simp [musicJump, driftJump]
  · simp [musicJump, driftJump]
  · have h2 := hInv (by simp)
    rcases upd with _ | t
    · simp at h2
    · simp [musicJump, driftJump]

theorem musicUpdateFlag_eq (updatePos : Bool) (relTime : Option Rat)
    (now : Rat) (d : Device)
    (hInv : d.mediaPosition.isSome = true →
      d.mediaPositionUpdatedAt.isSome = true) :
    musicUpdateFlag updatePos relTime now d =
      some (driftFlag updatePos relTime now d) := by
  unfold musicUpdateFlag driftFlag
  rw [musicJump_eq _ _ _ _ _ hInv]

theorem update_media_music_drift (updatePos : Bool) (track : TrackInfo)
    (relTime : Option Rat) (now : Rat) (d : Device)
    (hInv : d.mediaPosition.isSome = true →
      d.mediaPositionUpdatedAt.isSome = true) :
    (update_media_music updatePos track relTime now d).map
      (fun x => (x.mediaPosition, x.mediaPositionUpdatedAt)) =
    some (if driftFlag updatePos relTime now d then (relTime, some now)
          else (d.mediaPosition, d.mediaPositionUpdatedAt)) := by
  have h1 : musicUpdateFlag updatePos relTime now
      { d with mediaDuration := track.duration } =
      some (driftFlag updatePos relTime now d) := by
    rw [musicUpdateFlag_eq updatePos relTime now
      { d with mediaDuration := track.duration } hInv]
    exact congrArg some (driftFlag_only_position updatePos relTime now d _ rfl rfl)
  simp only [update_media_music]
  rw [h1]
  simp only [Option.map_some']
  cases hdf : driftFlag updatePos relTime now d
  · rfl
  · rfl

theorem update_media_proj (s : SonosState) (self : Uid) (poll : MediaPoll)
    (hT : poll.transportState ≠ "TRANSITIONING")
    (hTv : poll.isPlayingTv = false) (hLi : poll.isPlayingLineIn = false)
    (hR : is_radio_uri poll.track.uri = false) :
    (update_media s self poll none).map
      (fun r => ((r.1.dev self).mediaPosition,
                 (r.1.dev self).mediaPositionUpdatedAt)) =
    (update_media_music (decide (some poll.transportState ≠ (s.dev self).status))
        poll.track poll.relTime poll.now
        { s.dev self with shuffle := some poll.shuffle }).map
      (fun x => (x.mediaPosition, x.mediaPositionUpdatedAt)) := by
  simp only [update_media, hTv, hLi, hR, Bool.false_eq_true, if_false,
    if_neg hT, Option.map_map]
  apply Option.map_congr
  intro d2 _
  simp [setDev]

/-- Claim C3: for a polled music track, the recorded (position, timestamp)
pair is overwritten with (raw position, now) exactly when the spec drift
condition holds (extrapolation differs from the raw position by more than
1.5 s, a none/non-none change in the raw position, or a transport-status
change), and both are left unchanged otherwise. -/
theorem update_media_drift_correction (s : SonosState) (self : Uid)
    (poll : MediaPoll)
    (hT : poll.transportState ≠ "TRANSITIONING")
    (hTv : poll.isPlayingTv = false) (hLi : poll.isPlayingLineIn = false)
    (hR : is_radio_uri poll.track.uri = false)
    (hInv : (s.dev self).mediaPosition.isSome = true →
      (s.dev self).mediaPositionUpdatedAt.isSome = true) :
    (update_media s self poll none).map
      (fun r => ((r.1.dev self).mediaPosition,
                 (r.1.dev self).mediaPositionUpdatedAt)) =
    some (if specDriftCondition (s.dev self) poll.transportState poll.relTime
            poll.now
          then (poll.relTime, some poll.now)
          else ((s.dev self).mediaPosition,
                (s.dev self).mediaPositionUpdatedAt)) := by
  rw [update_media_proj s self poll hT hTv hLi hR]
  rw [update_media_music_drift
    (decide (some poll.transportState ≠ (s.dev self).status)) poll.track
    poll.relTime poll.now { s.dev self with shuffle := some poll.shuffle } hInv]
  rw [specDriftCondition_eq]
  rw [driftFlag_only_position
    (decide (some poll.transportState ≠ (s.dev self).status)) poll.relTime
    poll.now (s.dev self) { s.dev self with shuffle := some poll.shuffle }
    rfl rfl]

def wS3 : SonosState :=
  ⟨[0], fun _ => { status := some "PLAYING", mediaPosition := some 10,
                   mediaPositionUpdatedAt := some 0 }⟩

def pollJump : MediaPoll :=
  { transportState := "PLAYING", track := { uri := "x-file-cifs://a/b" },
    relTime := some 20, now := 5 }

def pollSmall : MediaPoll :=
  { transportState := "PLAYING", track := { uri := "x-file-cifs://a/b" },
    relTime := some (56 / 5), now := 1 }

theorem update_media_drift_correction_witness :
    (update_media wS3 0 pollJump none).map
      (fun r => ((r.1.dev 0).mediaPosition,
                 (r.1.dev 0).mediaPositionUpdatedAt)) =
        some (some 20, some 5) ∧
    (update_media wS3 0 pollSmall none).map
      (fun r => ((r.1.dev 0).mediaPosition,
                 (r.1.dev 0).mediaPositionUpdatedAt)) =
        some (some 10, some 0) := by
  constructor
  · rw [update_media_drift_correction wS3 0 pollJump (by decide) rfl rfl
      (by with_unfolding_all decide) (by decide)]
    with_unfolding_all decide
  · rw [update_media_drift_correction wS3 0 pollSmall (by decide) rfl rfl
      (by with_unfolding_all decide) (by decide)]
    with_unfolding_all decide

theorem regroupTarget_idem (d : Device) (self : Uid) (resolved : List Uid) :
    regroupTarget (regroupTarget d self resolved) self resolved =
      regroupTarget d self resolved := rfl

theorem regroupLoop_dev (self : Uid) (resolved : List Uid) :
    ∀ (l : List Uid) (st : SonosState) (u : Uid),
      (regroupLoop self resolved st l).dev u =
        if u ∈ l ∧ st.registry.contains u = true
        then regroupTarget (st.dev u) self resolved
        else st.dev u := by
  intro l
  induction l with
  | nil => intro st u; simp [regroupLoop]
  | cons a rest ih =>
    intro st u
    simp only [regroupLoop]
    rw [ih]
    by_cases hca : st.registry.contains a = true <;>
      by_cases hua : u = a <;>
      by_cases hur : u ∈ rest <;>
      simp_all [setDev_registry, setDev_dev_self, setDev_dev_other,
        regroupTarget_idem, List.mem_cons]

theorem regroupLoop_registry (self : Uid) (resolved : List Uid) :
    ∀ (l : List Uid) (st : SonosState),
      (regroupLoop self resolved st l).registry = st.registry := by
  intro l
  induction l with
  | nil => intro st; rfl
  | cons a rest ih =>
    intro st
    simp only [regroupLoop]
    rw [ih]
    split
    · rw [setDev_registry]
    · rfl

/-- Claim C1 (amended): a group list applied by _async_regroup whose head
does not reappear among the later entries establishes the topology
invariant: the head (the handling device, resolved) keeps a nil
coordinator pointer, every other resolved member points at the head, and
every resolved member stores the same resolved membership list, head
first.  (With a duplicated head the head's own coordinator pointer is set
to itself instead; see the counterexample.) -/
theorem asyncRegroup_topology_invariant (s : SonosState) (self : Uid)
    (group : List Uid)
    (hHead : group.head? = some self)
    (hReg : s.registry.contains self = true)
    (hNoDup : self ∉ group.tail) :
    (group.filter (fun u => s.registry.contains u)).head? = some self ∧
    ((asyncRegroup s self group).dev self).coordinator = none ∧
    ((asyncRegroup s self group).dev self).sonosGroup =
      group.filter (fun u => s.registry.contains u) ∧
    ∀ u ∈ group.tail, s.registry.contains u = true →
      ((asyncRegroup s self group).dev u).coordinator = some self ∧
      ((asyncRegroup s self group).dev u).sonosGroup =
        group.filter (fun u => s.registry.contains u) := by
  rcases group with _ | ⟨g0, rest⟩
  · simp at hHead
  have hg0 : g0 = self := by simpa using hHead
  subst hg0
  simp only [List.tail_cons] at hNoDup
  have hmem : g0 ∈ s.registry := by simpa using hReg
  have hfil : (g0 :: rest).filter (fun u => s.registry.contains u) =
      g0 :: rest.filter (fun u => s.registry.contains u) := by
    simp [List.filter_cons, hmem]
  refine ⟨by rw [hfil]; rfl, ?_, ?_, ?_⟩
  · unfold asyncRegroup
    rw [regroupLoop_dev]
    rw [if_neg (fun hc => hNoDup hc.1), setDev_dev_self]
  · unfold asyncRegroup
    rw [regroupLoop_dev]
    rw [if_neg (fun hc => hNoDup hc.1), setDev_dev_self]
  · intro u hu hcu
    have hune : u ≠ g0 := fun he => hNoDup (he ▸ hu)
    unfold asyncRegroup
    rw [regroupLoop_dev]
    rw [if_pos ⟨hu, by rw [setDev_registry]; exact hcu⟩,
      setDev_dev_other s g0 u _ hune]
    exact ⟨rfl, rfl⟩

def wTopo : SonosState := ⟨[0, 1], fun _ => {}⟩

theorem asyncRegroup_topology_invariant_witness :
    (([0, 1] : List Uid).head? = some 0 ∧
      wTopo.registry.contains 0 = true ∧
      (0 : Uid) ∉ ([0, 1] : List Uid).tail) ∧
    ((([0, 1] : List Uid).filter
        (fun u => wTopo.registry.contains u)).head? = some 0 ∧
      ((asyncRegroup wTopo 0 [0, 1]).dev 0).coordinator = none ∧
      ((asyncRegroup wTopo 0 [0, 1]).dev 0).sonosGroup =
        ([0, 1] : List Uid).filter (fun u => wTopo.registry.contains u) ∧
      ∀ u ∈ ([0, 1] : List Uid).tail, wTopo.registry.contains u = true →
        ((asyncRegroup wTopo 0 [0, 1]).dev u).coordinator = some 0 ∧
        ((asyncRegroup wTopo 0 [0, 1]).dev u).sonosGroup =
          ([0, 1] : List Uid).filter (fun u => wTopo.registry.contains u)) :=
  ⟨⟨rfl, rfl, by decide⟩,
    asyncRegroup_topology_invariant wTopo 0 [0, 1] rfl rfl (by decide)⟩

def cexTopo : SonosState := ⟨[0], fun _ => {}⟩

/-- Claim C1 counterexample: the group list [0, 0] (its head repeated in
the tail) resolves with the handling device 0 first, so update_groups
applies it and notifies the waiters, yet afterwards the first element's
coordinator pointer is 0 itself, not nil: the slave loop re-targets the
head at itself. -/
theorem update_groups_duplicate_head_counterexample :
    (update_groups cexTopo 0 (some ⟨some [0, 0]⟩) none).2 = true ∧
    ((update_groups cexTopo 0 (some ⟨some [0, 0]⟩) none).1.dev 0).coordinator
      = some 0 ∧ some (0 : Uid) ≠ none := by
  refine ⟨rfl, rfl, by decide⟩

/-- Claim C2: a topology notification carrying the group attribute is
applied, and the convergence waiters notified, exactly when the handling
device is the first entry of the resolved list; otherwise nothing is
applied: every device keeps its coordinator pointer and membership list
and no notification is sent. -/
theorem update_groups_applied_iff (s : SonosState) (self : Uid)
    (e : TopoEvent) (view : Option (Uid × List Uid))
    (hAttr : e.zoneGroup ≠ none) :
    ((resolveGroup self (some e) view).head? = some self →
      update_groups s self (some e) view =
        (asyncRegroup
          (setDev s self { s.dev self with receivesEvents := true })
          self (resolveGroup self (some e) view), true)) ∧
    ((resolveGroup self (some e) view).head? ≠ some self →
      (update_groups s self (some e) view).2 = false ∧
      ∀ u : Uid,
        ((update_groups s self (some e) view).1.dev u).coordinator =
          (s.dev u).coordinator ∧
        ((update_groups s self (some e) view).1.dev u).sonosGroup =
          (s.dev u).sonosGroup) := by
  rcases e with ⟨zg⟩
  rcases zg with _ | l
  · exact absurd rfl hAttr
  constructor
  · intro hh
    simp only [update_groups, handleGroupEvent]
    rw [if_pos hh]
  · intro hh
    simp only [update_groups, handleGroupEvent]
    rw [if_neg hh]
    refine ⟨rfl, fun u => ?_⟩
    by_cases hu : u = self
    · subst hu; rw [setDev_dev_self]; exact ⟨rfl, rfl⟩
    · rw [setDev_dev_other s self u _ hu]; exact ⟨rfl, rfl⟩

def wTopo2 : SonosState :=
  ⟨[0, 1], fun u => if u = 1 then { coordinator := some 5 } else {}⟩

theorem update_groups_applied_iff_witness :
    ((⟨some [1, 0]⟩ : TopoEvent).zoneGroup ≠ none ∧
      (resolveGroup 0 (some ⟨some [1, 0]⟩) none).head? ≠ some 0) ∧
    ((update_groups wTopo2 0 (some ⟨some [1, 0]⟩) none).2 = false ∧
      ∀ u : Uid,
        ((update_groups wTopo2 0 (some ⟨some [1, 0]⟩) none).1.dev u).coordinator
          = (wTopo2.dev u).coordinator ∧
        ((update_groups wTopo2 0 (some ⟨some [1, 0]⟩) none).1.dev u).sonosGroup
          = (wTopo2.dev u).sonosGroup) :=
  ⟨⟨by decide, by decide⟩,
    (update_groups_applied_iff wTopo2 0 ⟨some [1, 0]⟩ none (by decide)).2
      (by decide)⟩

/-- The precondition under which _test_groups reads a group without an
IndexError: the target group is nonempty and its coordinator's live
membership list is nonempty. -/
def groupSafeB (st : SonosState) (g : List Uid) : Bool :=
  match g with
  | [] => false
  | c :: _ => !(st.dev c).sonosGroup.isEmpty

/-- The convergence condition as the spec states it for one target group:
the coordinator (first entry) is the head of its own live group list, and
the target follower set equals the live follower set ignoring order. -/
def specGroupMatch (st : SonosState) (g : List Uid) : Bool :=
  match g with
  | [] => false
  | coord :: slaves =>
    ((st.dev coord).sonosGroup.head? == some coord)
      && (slaves.all (fun x => (st.dev coord).sonosGroup.tail.contains x)
          && (st.dev coord).sonosGroup.tail.all (fun x => slaves.contains x))

theorem testGroup_eq (st : SonosState) (g : List Uid)
    (h : groupSafeB st g = true) :
    testGroup st g = Except.ok (specGroupMatch st g) := by
  rcases g with _ | ⟨c, slaves⟩
  · simp [groupSafeB] at h
  · rcases hg : (st.dev c).sonosGroup with _ | ⟨c0, ctail⟩
    · simp [groupSafeB, hg] at h
    · simp only [testGroup, hg, specGroupMatch]
      by_cases hc : c = c0
      · subst hc
        rw [if_neg (by simp)]
        simp
      · rw [if_pos hc]
        simp [beq_iff_eq, Ne.symm hc]

theorem testGroups_eq (st : SonosState) (groups : List (List Uid))
    (h : groups.all (groupSafeB st) = true) :
    testGroups st groups = Except.ok (groups.all (specGroupMatch st)) := by
  induction groups with
  | nil => rfl
  | cons g rest ih =>
    simp only [List.all_cons, Bool.and_eq_true] at h
    have hg := h.1
    have hr := h.2
    simp only [testGroups, testGroup_eq st g hg]
    cases hm : specGroupMatch st g
    · simp [List.all_cons, hm]
    · simp [List.all_cons, hm, ih hr]

theorem waitLoop_spec (groups : List (List Uid)) :
    ∀ (obs : List SonosState) (s : SonosState),
      (∀ st ∈ s :: obs, groups.all (groupSafeB st) = true) →
      ∃ sF b, waitLoop groups s obs = Except.ok (sF, b) ∧
        (b = true ↔ ∃ st ∈ s :: obs, groups.all (specGroupMatch st) = true) := by
  intro obs
  induction obs with
  | nil =>
    intro s h
    have hs := h s (by simp)
    simp only [waitLoop, testGroups_eq s groups hs]
    cases hm : groups.all (specGroupMatch s)
    · refine ⟨s, false, rfl, ?_, ?_⟩
      · intro hfalse; exact absurd hfalse (by simp)
      · rintro ⟨st, hst, hp⟩
        rw [List.mem_singleton] at hst
        subst hst
        rw [hp] at hm
        exact hm.symm
    · exact ⟨s, true, rfl,
        ⟨fun _ => ⟨s, by simp, hm⟩, fun _ => rfl⟩⟩
  | cons s2 rest ih =>
    intro s h
    have hs := h s (by simp)
    simp only [waitLoop, testGroups_eq s groups hs]
    cases hm : groups.all (specGroupMatch s)
    · obtain ⟨sF, b, heq, hiff⟩ :=
        ih s2 (fun st hst => h st (List.mem_cons_of_mem s hst))
      refine ⟨sF, b, heq, hiff.trans ⟨?_, ?_⟩⟩
      · rintro ⟨st, hst, hp⟩
        exact ⟨st, List.mem_cons_of_mem s hst, hp⟩
      · rintro ⟨st, hst, hp⟩
        rcases List.mem_cons.1 hst with h1 | h1
        · subst h1
          rw [hp] at hm
          exact absurd hm (by simp)
        · exact ⟨st, h1, hp⟩
    · exact ⟨s, true, rfl, by
        simp only [true_iff]
        exact ⟨s, by simp, hm⟩⟩

theorem clearLoop_cache : ∀ (l : List Uid) (s : SonosState) (u : Uid),
    ((l.foldl
        (fun acc v => setDev acc v { acc.dev v with zgsCache := false })
        s).dev u).zgsCache
      = if u ∈ l then false else (s.dev u).zgsCache := by
  intro l
  induction l with
  | nil => intro s u; simp
  | cons a rest ih =>
    intro s u
    simp only [List.foldl_cons]
    rw [ih]
    by_cases hua : u = a
    · subst hua
      by_cases hur : u ∈ rest <;>
        simp [hur, setDev_dev_self, List.mem_cons]
    · by_cases hur : u ∈ rest <;>
        simp [hua, hur, setDev_dev_other _ _ _ _ hua, List.mem_cons]

theorem clearLoop_registry : ∀ (l : List Uid) (s : SonosState),
    (l.foldl
        (fun acc v => setDev acc v { acc.dev v with zgsCache := false })
        s).registry = s.registry := by
  intro l
  induction l with
  | nil => intro s; rfl
  | cons a rest ih =>
    intro s
    simp only [List.foldl_cons]
    rw [ih]
    rfl

theorem clearZgsCaches_registry (s : SonosState) :
    (clearZgsCaches s).registry = s.registry := clearLoop_registry _ _

theorem clearZgsCaches_cleared (s : SonosState) (u : Uid)
    (hu : u ∈ s.registry) : ((clearZgsCaches s).dev u).zgsCache = false := by
  unfold clearZgsCaches
  rw [clearLoop_cache]
  simp [hu]

/-- Claim C5: when every target group is nonempty and its coordinator has
a nonempty live list (as every group handed to the waiter does, having a
coordinator head), wait_for_groups always returns normally: it converges
as soon as some observed state matches every target group (same
coordinator at the head fn its own list, same follower set ignoring
order), or runs out of notifications (the 5-second timeout), in which case
the timeout is logged; on return the cached raw topology of every
registered device has been cleared. -/
theorem wait_for_groups_returns (s : SonosState) (groups : List (List Uid))
    (observed : List SonosState)
    (h : ∀ st ∈ s :: observed, groups.all (groupSafeB st) = true) :
    ∃ w, wait_for_groups s groups observed = Except.ok w ∧
      (∀ u ∈ w.state.registry, (w.state.dev u).zgsCache = false) ∧
      (w.converged = true ↔
        ∃ st ∈ s :: observed, groups.all (specGroupMatch st) = true) ∧
      (w.converged = false → w.logs = ["Timeout waiting for target groups"]) ∧
      (w.converged = true → w.logs = []) := by
  obtain ⟨sF, b, heq, hiff⟩ := waitLoop_spec groups observed s h
  refine ⟨⟨clearZgsCaches sF, b,
      if b then [] else ["Timeout waiting for target groups"]⟩,
    ?_, ?_, hiff, ?_, ?_⟩
  · unfold wait_for_groups
    rw [heq]
  · intro u hu
    rw [clearZgsCaches_registry] at hu
    exact clearZgsCaches_cleared sF u hu
  · intro hb
    have hb2 : b = false := hb
    simp [hb2]
  · intro hb
    have hb2 : b = true := hb
    simp [hb2]

def wWait : SonosState :=
  ⟨[0, 1], fun u => if u = 0 then { sonosGroup := [0] } else { sonosGroup := [1] }⟩

theorem wait_for_groups_returns_witness :
    (∀ st ∈ wWait :: ([] : List SonosState),
      ([[0, 1]] : List (List Uid)).all (groupSafeB st) = true) ∧
    ∃ w, wait_for_groups wWait [[0, 1]] [] = Except.ok w ∧
      (∀ u ∈ w.state.registry, (w.state.dev u).zgsCache = false) ∧
      (w.converged = true ↔
        ∃ st ∈ wWait :: ([] : List SonosState),
          ([[0, 1]] : List (List Uid)).all (specGroupMatch st) = true) ∧
      (w.converged = false → w.logs = ["Timeout waiting for target groups"]) ∧
      (w.converged = true → w.logs = []) :=
  ⟨by decide, wait_for_groups_returns wWait [[0, 1]] [] (by decide)⟩

/-- Claim C9 (amended): when the reachability probe of an available device
fails, update releases its event subscriptions and resets the local state:
volume/mute, position, position timestamp, duration and all media metadata
are cleared, the transport status becomes OFF and the coordinator pointer
becomes nil — while the membership list is left unchanged rather than
being reset to the one-member group the spec describes. -/
theorem update_unavailable_reset (s : SonosState) (self : Uid)
    (basic : BasicInfo) (poll : MediaPoll)
    (hAvail : (s.dev self).available = true) :
    updateEntity s self false basic poll =
      some (setDev s self
        { s.dev self with
          available := false
          subscriptions := 0
          playerVolume := none
          playerMuted := none
          status := some "OFF"
          coordinator := none
          mediaDuration := none
          mediaPosition := none
          mediaPositionUpdatedAt := none
          mediaImageUrl := none
          mediaArtist := none
          mediaAlbumName := none
          mediaTitle := none
          sourceName := none },
        List.replicate (s.dev self).subscriptions (Cmd.unsubscribe self)) ∧
    (updateEntity s self false basic poll).map
      (fun r => (r.1.dev self).sonosGroup) = some (s.dev self).sonosGroup := by
  have h1 : updateEntity s self false basic poll =
      some (setDev s self
        { s.dev self with
          available := false
          subscriptions := 0
          playerVolume := none
          playerMuted := none
          status := some "OFF"
          coordinator := none
          mediaDuration := none
          mediaPosition := none
          mediaPositionUpdatedAt := none
          mediaImageUrl := none
          mediaArtist := none
          mediaAlbumName := none
          mediaTitle := none
          sourceName := none },
        List.replicate (s.dev self).subscriptions (Cmd.unsubscribe self)) := by
    simp only [updateEntity]
    rw [hAvail]
    rw [if_pos (by decide : (true : Bool) ≠ false)]
    rw [if_neg (by decide : ¬((false : Bool) = true))]
  refine ⟨h1, ?_⟩
  rw [h1]
  simp [setDev]

def wS9 : SonosState :=
  ⟨[0, 1], fun _ => { sonosGroup := [0, 1], subscriptions := 2,
                      playerVolume := some 10, status := some "PLAYING" }⟩

theorem update_unavailable_reset_witness :
    (wS9.dev 0).available = true ∧
    (updateEntity wS9 0 false {} {} =
      some (setDev wS9 0
        { wS9.dev 0 with
          available := false
          subscriptions := 0
          playerVolume := none
          playerMuted := none
          status := some "OFF"
          coordinator := none
          mediaDuration := none
          mediaPosition := none
          mediaPositionUpdatedAt := none
          mediaImageUrl := none
          mediaArtist := none
          mediaAlbumName := none
          mediaTitle := none
          sourceName := none },
        List.replicate (wS9.dev 0).subscriptions (Cmd.unsubscribe 0)) ∧
    (updateEntity wS9 0 false {} {}).map
      (fun r => (r.1.dev 0).sonosGroup) = some (wS9.dev 0).sonosGroup) :=
  ⟨rfl, update_unavailable_reset wS9 0 {} {} rfl⟩

/-- Claim C9 counterexample: a reachable device in the two-member group
[0, 1] goes unreachable; after update its membership list is still [0, 1],
not the one-member group [0] the claim asserts. -/
theorem update_unavailable_group_not_reset_counterexample :
    (updateEntity wS9 0 false {} {}).map (fun r => (r.1.dev 0).sonosGroup)
      = some [0, 1] ∧ ([0, 1] : List Uid) ≠ [0] :=
  ⟨rfl, by decide⟩

/-- Claim C10 (amended): restore always consumes the snapshot — both the
captured transport/volume snapshot and the captured group are cleared
unconditionally, even when applying the snapshot fails (the failure is
logged and swallowed) — and a later restore_multi never selects the device
through its snapshot filter.  (The device can still be operated on when it
appears in another selected device's snapshotted group; see the
counterexample.) -/
theorem restore_clears_snapshot (s : SonosState) (applyOk : Uid → Bool)
    (u : Uid) :
    ((restoreEntity s applyOk u).1.dev u).socoSnapshot = false ∧
    ((restoreEntity s applyOk u).1.dev u).snapshotGroup = none ∧
    ((s.dev u).socoSnapshot = true → applyOk u = false →
      (restoreEntity s applyOk u).2 = [Cmd.snapRestore u, Cmd.logWarn u]) ∧
    ∀ ents0 : List Uid,
      u ∉ restoreMultiBase (restoreEntity s applyOk u).1 ents0 := by
  refine ⟨?_, ?_, ?_, ?_⟩
  · simp [restoreEntity, setDev_dev_self]
  · simp [restoreEntity, setDev_dev_self]
  · intro h1 h2
    simp [restoreEntity, h1, h2]
  · intro ents0 hmem
    have h2 := (List.mem_filter.mp hmem).2
    have hc : ((restoreEntity s applyOk u).1.dev u).socoSnapshot = false := by
      simp [restoreEntity, setDev_dev_self]
    rw [hc] at h2
    exact absurd h2 (by simp)

def wS10 : SonosState :=
  ⟨[0, 1], fun u =>
    if u = 0 then { socoSnapshot := true, snapshotGroup := some [0] }
    else { socoSnapshot := true, snapshotGroup := some [1, 0] }⟩

theorem restore_clears_snapshot_witness :
    ((wS10.dev 0).socoSnapshot = true ∧ (fun _ : Uid => false) 0 = false) ∧
    (((restoreEntity wS10 (fun _ => false) 0).1.dev 0).socoSnapshot = false ∧
     ((restoreEntity wS10 (fun _ => false) 0).1.dev 0).snapshotGroup = none ∧
     ((wS10.dev 0).socoSnapshot = true → (fun _ : Uid => false) 0 = false →
       (restoreEntity wS10 (fun _ => false) 0).2 =
         [Cmd.snapRestore 0, Cmd.logWarn 0]) ∧
     ∀ ents0 : List Uid,
       0 ∉ restoreMultiBase (restoreEntity wS10 (fun _ => false) 0).1 ents0) :=
  ⟨⟨rfl, rfl⟩, restore_clears_snapshot wS10 (fun _ => false) 0⟩

/-- Claim C10 counterexample: after device 0's failed restore cleared its
snapshot, a restore_multi over [0, 1] with with_group still operates on
device 0, because device 1 holds a snapshot whose captured group [1, 0]
pulls 0 back into the affected set — restore_multi does not skip it. -/
theorem restore_multi_still_selects_counterexample :
    ((restoreEntity wS10 (fun _ => true) 0).1.dev 0).socoSnapshot = false ∧
    0 ∈ affectedSet (restoreEntity wS10 (fun _ => true) 0).1 [0, 1] true :=
  ⟨rfl, by decide⟩

theorem joinLoop_dev (self : Uid) :
    ∀ (slaves : List Uid) (st : SonosState) (tr : List Cmd) (g : List Uid)
      (u : Uid),
      ((joinLoop self (st, tr, g) slaves).1.dev u) =
        if u ∈ slaves ∧ u ≠ self
        then { st.dev u with coordinator := some self }
        else st.dev u := by
  intro slaves
  induction slaves with
  | nil => intro st tr g u; simp [joinLoop]
  | cons m rest ih =>
    intro st tr g u
    simp only [joinLoop]
    by_cases hm : m ≠ self
    · rw [if_pos hm, ih]
      by_cases hum : u = m
      · subst hum
        by_cases hur : u ∈ rest <;>
          simp_all [setDev_dev_self, List.mem_cons]
      · rw [setDev_dev_other st m u _ hum]
        by_cases hur : u ∈ rest <;> by_cases hus : u = self <;>
          simp_all [List.mem_cons]
    · rw [if_neg hm, ih]
      have hms : m = self := by simpa using hm
      subst hms
      by_cases hur : u ∈ rest <;> by_cases hus : u = m <;>
        simp_all [List.mem_cons]

theorem joinLoop_registry (self : Uid) :
    ∀ (slaves : List Uid) (st : SonosState) (tr : List Cmd) (g : List Uid),
      (joinLoop self (st, tr, g) slaves).1.registry = st.registry := by
  intro slaves
  induction slaves with
  | nil => intro st tr g; rfl
  | cons m rest ih =>
    intro st tr g
    simp only [joinLoop]
    by_cases hm : m ≠ self
    · rw [if_pos hm, ih]; rfl
    · rw [if_neg hm, ih]

theorem joinLoop_trace (self : Uid) :
    ∀ (slaves : List Uid) (st : SonosState) (tr : List Cmd) (g : List Uid),
      (joinLoop self (st, tr, g) slaves).2.1 =
        tr ++ (slaves.filter (fun m => m ≠ self)).map
          (fun m => Cmd.socoJoin m self) := by
  intro slaves
  induction slaves with
  | nil => intro st tr g; simp [joinLoop]
  | cons m rest ih =>
    intro st tr g
    simp only [joinLoop]
    by_cases hm : m ≠ self
    · rw [if_pos hm, ih]
      simp [List.filter_cons, hm, List.append_assoc]
    · rw [if_neg hm, ih]
      simp [List.filter_cons, hm]

theorem joinLoop_group_prefix (self : Uid) :
    ∀ (slaves : List Uid) (st : SonosState) (tr : List Cmd) (g : List Uid),
      ∃ ext, (joinLoop self (st, tr, g) slaves).2.2 = g ++ ext := by
  intro slaves
  induction slaves with
  | nil => intro st tr g; exact ⟨[], by simp [joinLoop]⟩
  | cons m rest ih =>
    intro st tr g
    simp only [joinLoop]
    by_cases hm : m ≠ self
    · rw [if_pos hm]
      by_cases hc : g.contains m
      · rw [if_pos hc]
        exact ih _ _ _
      · rw [if_neg hc]
        obtain ⟨ext, hext⟩ := ih (setDev st m { st.dev m with coordinator := some self })
          (tr ++ [Cmd.socoJoin m self]) (g ++ [m])
        exact ⟨m :: ext, by rw [hext]; simp⟩
    · rw [if_neg hm]
      exact ih _ _ _

theorem joinLoop_group_covers (self : Uid) :
    ∀ (slaves : List Uid) (st : SonosState) (tr : List Cmd) (g : List Uid),
      ∀ m ∈ slaves, m ≠ self →
        m ∈ (joinLoop self (st, tr, g) slaves).2.2 := by
  intro slaves
  induction slaves with
  | nil => intro st tr g m hm; simp at hm
  | cons a rest ih =>
    intro st tr g m hm hms
    rcases List.mem_cons.1 hm with h1 | h1
    · subst h1
      simp only [joinLoop]
      rw [if_pos hms]
      by_cases hc : g.contains m
      · rw [if_pos hc]
        obtain ⟨ext, hext⟩ := joinLoop_group_prefix self rest
          (setDev st m { st.dev m with coordinator := some self })
          (tr ++ [Cmd.socoJoin m self]) g
        rw [hext]
        exact List.mem_append_left _ (by simpa using hc)
      · rw [if_neg hc]
        obtain ⟨ext, hext⟩ := joinLoop_group_prefix self rest
          (setDev st m { st.dev m with coordinator := some self })
          (tr ++ [Cmd.socoJoin m self]) (g ++ [m])
        rw [hext]
        exact List.mem_append_left _ (by simp)
    · simp only [joinLoop]
      by_cases ha : a ≠ self
      · rw [if_pos ha]
        by_cases hc : g.contains a
        · rw [if_pos hc]; exact ih _ _ _ m h1 hms
        · rw [if_neg hc]; exact ih _ _ _ m h1 hms
      · rw [if_neg ha]; exact ih _ _ _ m h1 hms

theorem joinLoop_group_nodup (self : Uid) :
    ∀ (slaves : List Uid) (st : SonosState) (tr : List Cmd) (g : List Uid),
      g.Nodup → ((joinLoop self (st, tr, g) slaves).2.2).Nodup := by
  intro slaves
  induction slaves with
  | nil => intro st tr g hg; simpa [joinLoop] using hg
  | cons m rest ih =>
    intro st tr g hg
    simp only [joinLoop]
    by_cases hm : m ≠ self
    · rw [if_pos hm]
      by_cases hc : g.contains m
      · rw [if_pos hc]; exact ih _ _ _ hg
      · rw [if_neg hc]
        refine ih _ _ _ ?_
        have hnm : m ∉ g := by simpa using hc
        simp [List.nodup_append, hg, hnm]
    · rw [if_neg hm]; exact ih _ _ _ hg

/-- Claim C6: join(target, members) unjoins first when the target is a
follower (starting from the one-member group [target]) and otherwise
starts from a copy of the target's current group; every member other than
the target receives a join command and has its coordinator pointer set to
the target; the returned list starts with the target (or the target's
prior group) and contains every such member exactly once. -/
theorem join_spec (s : SonosState) (self : Uid) (slaves : List Uid)
    (hnd : (s.dev self).coordinator = none → (s.dev self).sonosGroup.Nodup) :
    (∀ m ∈ slaves, m ≠ self →
      ((joinEntity s self slaves).1.dev m).coordinator = some self ∧
      Cmd.socoJoin m self ∈ (joinEntity s self slaves).2.1 ∧
      ((joinEntity s self slaves).2.2).count m = 1) ∧
    ((s.dev self).coordinator ≠ none →
      ((joinEntity s self slaves).2.1).head? = some (Cmd.socoUnjoin self) ∧
      ∃ ext, (joinEntity s self slaves).2.2 = self :: ext) ∧
    ((s.dev self).coordinator = none →
      ∃ ext, (joinEntity s self slaves).2.2 =
        (s.dev self).sonosGroup ++ ext) := by
  rcases hc : (s.dev self).coordinator with _ | c
  · have hbr : joinEntity s self slaves =
        joinLoop self (s, [], (s.dev self).sonosGroup) slaves := by
      simp [joinEntity, hc]
    refine ⟨?_, ?_, ?_⟩
    · intro m hm hms
      refine ⟨?_, ?_, ?_⟩
      · rw [hbr, joinLoop_dev]
        rw [if_pos ⟨hm, hms⟩]
      · rw [hbr, joinLoop_trace]
        refine List.mem_append_right _ ?_
        exact List.mem_map.2 ⟨m, List.mem_filter.2 ⟨hm, by simp [hms]⟩, rfl⟩
      · rw [hbr]
        refine List.count_eq_one_of_mem
          (joinLoop_group_nodup self slaves s [] _ (hnd hc))
          (joinLoop_group_covers self slaves s [] _ m hm hms)
    · intro hcc; exact absurd rfl hcc
    · intro _
      rw [hbr]
      exact joinLoop_group_prefix self slaves s [] _
  · have hbr : joinEntity s self slaves =
        joinLoop self (setDev s self { s.dev self with coordinator := none },
          [Cmd.socoUnjoin self], [self]) slaves := by
      simp [joinEntity, unjoinEntity, hc]
    refine ⟨?_, ?_, ?_⟩
    · intro m hm hms
      refine ⟨?_, ?_, ?_⟩
      · rw [hbr, joinLoop_dev]
        rw [if_pos ⟨hm, hms⟩]
      · rw [hbr, joinLoop_trace]
        refine List.mem_append_right _ ?_
        exact List.mem_map.2 ⟨m, List.mem_filter.2 ⟨hm, by simp [hms]⟩, rfl⟩
      · rw [hbr]
        refine List.count_eq_one_of_mem
          (joinLoop_group_nodup self slaves _ _ _ (by simp))
          (joinLoop_group_covers self slaves _ _ _ m hm hms)
    · intro _
      constructor
      · rw [hbr, joinLoop_trace]
        rfl
      · rw [hbr]
        exact joinLoop_group_prefix self slaves _ _ _
    · intro hcc
      exact absurd hcc (by simp)

def wJoin : SonosState :=
  ⟨[0, 1], fun u => if u = 0 then { sonosGroup := [0] } else {}⟩

theorem join_spec_witness :
    ((wJoin.dev 0).coordinator = none → (wJoin.dev 0).sonosGroup.Nodup) ∧
    ((∀ m ∈ ([1] : List Uid), m ≠ 0 →
      ((joinEntity wJoin 0 [1]).1.dev m).coordinator = some 0 ∧
      Cmd.socoJoin m 0 ∈ (joinEntity wJoin 0 [1]).2.1 ∧
      ((joinEntity wJoin 0 [1]).2.2).count m = 1) ∧
    ((wJoin.dev 0).coordinator ≠ none →
      ((joinEntity wJoin 0 [1]).2.1).head? = some (Cmd.socoUnjoin 0) ∧
      ∃ ext, (joinEntity wJoin 0 [1]).2.2 = 0 :: ext) ∧
    ((wJoin.dev 0).coordinator = none →
      ∃ ext, (joinEntity wJoin 0 [1]).2.2 =
        (wJoin.dev 0).sonosGroup ++ ext)) :=
  ⟨fun _ => by decide, join_spec wJoin 0 [1] (fun _ => by decide)⟩

theorem restoreEntity_registry (s : SonosState) (ap : Uid → Bool) (u : Uid) :
    (restoreEntity s ap u).1.registry = s.registry := rfl

theorem restoreEntity_dev_other (s : SonosState) (ap : Uid → Bool)
    (u v : Uid) (h : v ≠ u) : (restoreEntity s ap u).1.dev v = s.dev v := by
  simp [restoreEntity, setDev_dev_other _ _ _ _ h]

theorem restoreEntity_coordinator (s : SonosState) (ap : Uid → Bool)
    (u v : Uid) :
    ((restoreEntity s ap u).1.dev v).coordinator = (s.dev v).coordinator := by
  by_cases h : v = u
  · subst h; simp [restoreEntity, setDev_dev_self]
  · rw [restoreEntity_dev_other s ap u v h]

theorem unjoinEntity_dev_other (s : SonosState) (u v : Uid) (h : v ≠ u) :
    (unjoinEntity s u).1.dev v = s.dev v := by
  simp [unjoinEntity, setDev_dev_other _ _ _ _ h]

theorem unjoinEntity_fields (s : SonosState) (u v : Uid) :
    ((unjoinEntity s u).1.dev v).snapshotGroup = (s.dev v).snapshotGroup ∧
    ((unjoinEntity s u).1.dev v).sonosGroup = (s.dev v).sonosGroup ∧
    ((unjoinEntity s u).1.dev v).socoSnapshot = (s.dev v).socoSnapshot := by
  by_cases h : v = u
  · subst h; simp [unjoinEntity, setDev_dev_self]
  · rw [unjoinEntity_dev_other s u v h]
    exact ⟨rfl, rfl, rfl⟩

theorem joinEntity_fields (s : SonosState) (self : Uid) (slaves : List Uid)
    (v : Uid) :
    ((joinEntity s self slaves).1.dev v).snapshotGroup =
      (s.dev v).snapshotGroup ∧
    ((joinEntity s self slaves).1.dev v).sonosGroup = (s.dev v).sonosGroup ∧
    ((joinEntity s self slaves).1.dev v).socoSnapshot =
      (s.dev v).socoSnapshot := by
  rcases hc : (s.dev self).coordinator with _ | c
  · have hbr : joinEntity s self slaves =
        joinLoop self (s, [], (s.dev self).sonosGroup) slaves := by
      simp [joinEntity, hc]
    rw [hbr, joinLoop_dev]
    by_cases h : v ∈ slaves ∧ v ≠ self <;> simp [h]
  · have hbr : joinEntity s self slaves =
        joinLoop self (setDev s self { s.dev self with coordinator := none },
          [Cmd.socoUnjoin self], [self]) slaves := by
      simp [joinEntity, unjoinEntity, hc]
    rw [hbr, joinLoop_dev]
    by_cases h : v ∈ slaves ∧ v ≠ self <;>
      by_cases hv : v = self <;>
      simp_all [setDev_dev_self, setDev_dev_other]

theorem joinEntity_cmds (s : SonosState) (self : Uid) (slaves : List Uid)
    (c : Cmd) (hmem : c ∈ (joinEntity s self slaves).2.1) :
    c = Cmd.socoUnjoin self ∨
      ∃ m ∈ slaves, m ≠ self ∧ c = Cmd.socoJoin m self := by
  rcases hco : (s.dev self).coordinator with _ | cc
  · have hbr : joinEntity s self slaves =
        joinLoop self (s, [], (s.dev self).sonosGroup) slaves := by
      simp [joinEntity, hco]
    rw [hbr, joinLoop_trace] at hmem
    simp only [List.nil_append, List.mem_map, List.mem_filter] at hmem
    obtain ⟨m, ⟨hm1, hm2⟩, hm3⟩ := hmem
    exact Or.inr ⟨m, hm1, by simpa using hm2, hm3.symm⟩
  · have hbr : joinEntity s self slaves =
        joinLoop self (setDev s self { s.dev self with coordinator := none },
          [Cmd.socoUnjoin self], [self]) slaves := by
      simp [joinEntity, unjoinEntity, hco]
    rw [hbr, joinLoop_trace] at hmem
    rw [List.singleton_append, List.mem_cons] at hmem
    rcases hmem with h1 | h1
    · exact Or.inl h1
    · simp only [List.mem_map, List.mem_filter] at h1
      obtain ⟨m, ⟨hm1, hm2⟩, hm3⟩ := h1
      exact Or.inr ⟨m, hm1, by simpa using hm2, hm3.symm⟩

theorem pysetInsert_nodup (l : List Uid) (u : Uid) (h : l.Nodup) :
    (pysetInsert l u).Nodup := by
  unfold pysetInsert
  by_cases hc : l.contains u = true
  · rw [if_pos hc]; exact h
  · rw [if_neg hc]
    have hnm : u ∉ l := by simpa using hc
    simp [List.nodup_append, h, hnm]

theorem pysetFold_nodup : ∀ (l : List Uid) (acc : List Uid),
    acc.Nodup → (l.foldl pysetInsert acc).Nodup := by
  intro l
  induction l with
  | nil => intro acc h; exact h
  | cons a rest ih =>
    intro acc h
    simp only [List.foldl_cons]
    exact ih _ (pysetInsert_nodup acc a h)

theorem pyset_nodup (l : List Uid) : (pyset l).Nodup :=
  pysetFold_nodup l [] List.nodup_nil

theorem restoreMultiBase_nodup (s : SonosState) (ents0 : List Uid) :
    (restoreMultiBase s ents0).Nodup :=
  (pyset_nodup ents0).filter _

theorem expandFold_nodup (s : SonosState) : ∀ (l : List Uid) (acc : List Uid),
    acc.Nodup →
    (l.foldl (fun a e =>
      match (s.dev e).snapshotGroup with
      | some g => if g ≠ [] then g.foldl pysetInsert a else a
      | none => a) acc).Nodup := by
  intro l
  induction l with
  | nil => intro acc h; exact h
  | cons a rest ih =>
    intro acc h
    simp only [List.foldl_cons]
    refine ih _ ?_
    rcases (s.dev a).snapshotGroup with _ | g
    · exact h
    · show (if g ≠ [] then g.foldl pysetInsert acc else acc).Nodup
      by_cases hg : g ≠ []
      · rw [if_pos hg]; exact pysetFold_nodup g acc h
      · rw [if_neg hg]; exact h

theorem affectedSet_nodup (s : SonosState) (ents0 : List Uid)
    (withGroup : Bool) : (affectedSet s ents0 withGroup).Nodup := by
  unfold affectedSet
  cases withGroup
  · simpa using restoreMultiBase_nodup s ents0
  · simpa using expandFold_nodup s (restoreMultiBase s ents0)
      (restoreMultiBase s ents0) (restoreMultiBase_nodup s ents0)

theorem unjoinSlavesLoop_trace_mono :
    ∀ (l : List Uid) (s : SonosState) (tr : List Cmd) (c : Cmd),
      c ∈ tr → c ∈ (unjoinSlavesLoop (s, tr) l).2 := by
  intro l
  induction l with
  | nil => intro s tr c hc; exact hc
  | cons a rest ih =>
    intro s tr c hc
    simp only [unjoinSlavesLoop]
    by_cases hd : snapGroupDiffers (s.dev a) = true
    · rw [if_pos hd]
      exact ih _ _ c (List.mem_append_left _ hc)
    · rw [if_neg hd]
      exact ih _ _ c hc

theorem unjoinSlavesLoop_cmds :
    ∀ (l : List Uid) (s : SonosState) (tr : List Cmd) (c : Cmd),
      c ∈ (unjoinSlavesLoop (s, tr) l).2 →
      c ∈ tr ∨ ∃ e ∈ l, c = Cmd.socoUnjoin e := by
  intro l
  induction l with
  | nil => intro s tr c hc; exact Or.inl hc
  | cons a rest ih =>
    intro s tr c hc
    simp only [unjoinSlavesLoop] at hc
    by_cases hd : snapGroupDiffers (s.dev a) = true
    · rw [if_pos hd] at hc
      rcases ih _ _ c hc with h1 | ⟨e, he, hcmd⟩
      · rcases List.mem_append.1 h1 with h2 | h2
        · exact Or.inl h2
        · simp only [unjoinEntity, List.mem_singleton] at h2
          exact Or.inr ⟨a, List.mem_cons_self a rest, h2⟩
      · exact Or.inr ⟨e, List.mem_cons_of_mem a he, hcmd⟩
    · rw [if_neg hd] at hc
      rcases ih _ _ c hc with h1 | ⟨e, he, hcmd⟩
      · exact Or.inl h1
      · exact Or.inr ⟨e, List.mem_cons_of_mem a he, hcmd⟩

theorem unjoinSlavesLoop_fields :
    ∀ (l : List Uid) (s : SonosState) (tr : List Cmd) (v : Uid),
      ((unjoinSlavesLoop (s, tr) l).1.dev v).snapshotGroup =
        (s.dev v).snapshotGroup ∧
      ((unjoinSlavesLoop (s, tr) l).1.dev v).sonosGroup =
        (s.dev v).sonosGroup ∧
      ((unjoinSlavesLoop (s, tr) l).1.dev v).socoSnapshot =
        (s.dev v).socoSnapshot := by
  intro l
  induction l with
  | nil => intro s tr v; exact ⟨rfl, rfl, rfl⟩
  | cons a rest ih =>
    intro s tr v
    simp only [unjoinSlavesLoop]
    by_cases hd : snapGroupDiffers (s.dev a) = true
    · rw [if_pos hd]
      obtain ⟨h1, h2, h3⟩ := ih (unjoinEntity s a).1 (tr ++ (unjoinEntity s a).2) v
      obtain ⟨g1, g2, g3⟩ := unjoinEntity_fields s a v
      exact ⟨h1.trans g1, h2.trans g2, h3.trans g3⟩
    · rw [if_neg hd]
      exact ih s tr v

theorem unjoinSlavesLoop_dev_untouched :
    ∀ (l : List Uid) (s : SonosState) (tr : List Cmd) (v : Uid),
      v ∉ l → (unjoinSlavesLoop (s, tr) l).1.dev v = s.dev v := by
  intro l
  induction l with
  | nil => intro s tr v _; rfl
  | cons a rest ih =>
    intro s tr v hv
    have hva : v ≠ a := fun he => hv (he ▸ List.mem_cons_self a rest)
    have hvr : v ∉ rest := fun he => hv (List.mem_cons_of_mem a he)
    simp only [unjoinSlavesLoop]
    by_cases hd : snapGroupDiffers (s.dev a) = true
    · rw [if_pos hd, ih _ _ v hvr]
      exact unjoinEntity_dev_other s a v hva
    · rw [if_neg hd]
      exact ih s tr v hvr

theorem unjoinSlavesLoop_covers :
    ∀ (l : List Uid) (s : SonosState) (tr : List Cmd) (u : Uid),
      u ∈ l → l.Nodup → snapGroupDiffers (s.dev u) = true →
      Cmd.socoUnjoin u ∈ (unjoinSlavesLoop (s, tr) l).2 := by
  intro l
  induction l with
  | nil => intro s tr u hu; simp at hu
  | cons a rest ih =>
    intro s tr u hu hnd hdiff
    rcases List.mem_cons.1 hu with h1 | h1
    · subst h1
      simp only [unjoinSlavesLoop]
      rw [if_pos hdiff]
      exact unjoinSlavesLoop_trace_mono rest _ _ _
        (List.mem_append_right _ (by simp [unjoinEntity]))
    · have hua : u ≠ a := by
        intro he
        subst he
        exact (List.nodup_cons.1 hnd).1 h1
      simp only [unjoinSlavesLoop]
      by_cases hd : snapGroupDiffers (s.dev a) = true
      · rw [if_pos hd]
        refine ih _ _ u h1 (List.nodup_cons.1 hnd).2 ?_
        rw [unjoinEntity_dev_other s a u hua]
        exact hdiff
      · rw [if_neg hd]
        exact ih _ _ u h1 (List.nodup_cons.1 hnd).2 hdiff

theorem rejoinLoop_trace_mono :
    ∀ (l : List Uid) (st : SonosState) (tr : List Cmd) (gs : List (List Uid))
      (c : Cmd), c ∈ tr → c ∈ (rejoinLoop (st, tr, gs) l).2.1 := by
  intro l
  induction l with
  | nil => intro st tr gs c hc; exact hc
  | cons a rest ih =>
    intro st tr gs c hc
    simp only [rejoinLoop]
    rcases hsnap : (st.dev a).snapshotGroup with _ | g
    · exact ih _ _ _ c hc
    · show c ∈ (rejoinLoop
        (if g ≠ [] ∧ g.head? = some a then
          ((joinEntity st a g).1, tr ++ (joinEntity st a g).2.1, gs ++ [g])
         else (st, tr, gs)) rest).2.1
      by_cases hg : g ≠ [] ∧ g.head? = some a
      · rw [if_pos hg]
        exact ih _ _ _ c (List.mem_append_left _ hc)
      · rw [if_neg hg]
        exact ih _ _ _ c hc

theorem rejoinLoop_fields :
    ∀ (l : List Uid) (st : SonosState) (tr : List Cmd) (gs : List (List Uid))
      (v : Uid),
      ((rejoinLoop (st, tr, gs) l).1.dev v).snapshotGroup =
        (st.dev v).snapshotGroup := by
  intro l
  induction l with
  | nil => intro st tr gs v; rfl
  | cons a rest ih =>
    intro st tr gs v
    simp only [rejoinLoop]
    rcases hsnap : (st.dev a).snapshotGroup with _ | g
    · exact ih _ _ _ v
    · show ((rejoinLoop
        (if g ≠ [] ∧ g.head? = some a then
          ((joinEntity st a g).1, tr ++ (joinEntity st a g).2.1, gs ++ [g])
         else (st, tr, gs)) rest).1.dev v).snapshotGroup =
        (st.dev v).snapshotGroup
      by_cases hg : g ≠ [] ∧ g.head? = some a
      · rw [if_pos hg, ih _ _ _ v]
        exact (joinEntity_fields st a g v).1
      · rw [if_neg hg]
        exact ih _ _ _ v

theorem rejoinLoop_cmds :
    ∀ (l : List Uid) (st : SonosState) (tr : List Cmd) (gs : List (List Uid))
      (c : Cmd), c ∈ (rejoinLoop (st, tr, gs) l).2.1 →
      c ∈ tr ∨ ∃ e ∈ l, ∃ g, (st.dev e).snapshotGroup = some g ∧
        g.head? = some e ∧
        (c = Cmd.socoUnjoin e ∨ ∃ m ∈ g, m ≠ e ∧ c = Cmd.socoJoin m e) := by
  intro l
  induction l with
  | nil => intro st tr gs c hc; exact Or.inl hc
  | cons a rest ih =>
    intro st tr gs c hc
    simp only [rejoinLoop] at hc
    rcases hsnap : (st.dev a).snapshotGroup with _ | g
    · rw [hsnap] at hc
      rcases ih _ _ _ c hc with h1 | ⟨e, he, g2, hg2, hh, hor⟩
      · exact Or.inl h1
      · exact Or.inr ⟨e, List.mem_cons_of_mem a he, g2, hg2, hh, hor⟩
    · rw [hsnap] at hc
      have hc2 : c ∈ (rejoinLoop
          (if g ≠ [] ∧ g.head? = some a then
            ((joinEntity st a g).1, tr ++ (joinEntity st a g).2.1, gs ++ [g])
           else (st, tr, gs)) rest).2.1 := hc
      by_cases hg : g ≠ [] ∧ g.head? = some a
      · rw [if_pos hg] at hc2
        rcases ih _ _ _ c hc2 with h1 | ⟨e, he, g2, hg2, hh, hor⟩
        · rcases List.mem_append.1 h1 with h2 | h2
          · exact Or.inl h2
          · rcases joinEntity_cmds st a g c h2 with h3 | ⟨m, hm, hmne, hcm⟩
            · exact Or.inr ⟨a, List.mem_cons_self a rest, g, hsnap, hg.2,
                Or.inl h3⟩
            · exact Or.inr ⟨a, List.mem_cons_self a rest, g, hsnap, hg.2,
                Or.inr ⟨m, hm, hmne, hcm⟩⟩
        · rw [(joinEntity_fields st a g e).1] at hg2
          exact Or.inr ⟨e, List.mem_cons_of_mem a he, g2, hg2, hh, hor⟩
      · rw [if_neg hg] at hc2
        rcases ih _ _ _ c hc2 with h1 | ⟨e, he, g2, hg2, hh, hor⟩
        · exact Or.inl h1
        · exact Or.inr ⟨e, List.mem_cons_of_mem a he, g2, hg2, hh, hor⟩

/-- The unconditional restore loop underlying one pass of
_restore_players once its generator condition is resolved. -/
def restoreSeq (applyOk : Uid → Bool) :
    SonosState × List Cmd → List Uid → SonosState × List Cmd
  | acc, [] => acc
  | acc, e :: rest =>
    restoreSeq applyOk
      ((restoreEntity acc.1 applyOk e).1,
        acc.2 ++ (restoreEntity acc.1 applyOk e).2) rest

theorem restoreEntity_cmds (s : SonosState) (ap : Uid → Bool) (u : Uid)
    (c : Cmd) (hc : c ∈ (restoreEntity s ap u).2) :
    c = Cmd.snapRestore u ∨ c = Cmd.logWarn u := by
  simp only [restoreEntity] at hc
  by_cases h1 : (s.dev u).socoSnapshot = true <;>
    by_cases h2 : ap u = true <;>
    simp_all

theorem restorePass_eq (cond : SonosState → Uid → Bool) (ap : Uid → Bool)
    (hstable : ∀ st u e, cond (restoreEntity st ap u).1 e = cond st e) :
    ∀ (ents : List Uid) (s : SonosState) (tr : List Cmd),
      restorePass cond ap (s, tr) ents =
        restoreSeq ap (s, tr) (ents.filter (fun e => cond s e)) := by
  intro ents
  induction ents with
  | nil => intro s tr; rfl
  | cons a rest ih =>
    intro s tr
    simp only [restorePass, List.filter_cons]
    by_cases hca : cond s a = true
    · rw [if_pos hca, if_pos hca, ih]
      simp only [restoreSeq]
      congr 1
      exact List.filter_congr (fun x _ => hstable s a x)
    · rw [if_neg hca, if_neg hca, ih]

theorem restoreSeq_shift (ap : Uid → Bool) :
    ∀ (l : List Uid) (s : SonosState) (tr : List Cmd),
      (restoreSeq ap (s, tr) l).1 = (restoreSeq ap (s, []) l).1 ∧
      (restoreSeq ap (s, tr) l).2 = tr ++ (restoreSeq ap (s, []) l).2 := by
  intro l
  induction l with
  | nil => intro s tr; exact ⟨rfl, by simp [restoreSeq]⟩
  | cons a rest ih =>
    intro s tr
    simp only [restoreSeq, List.nil_append]
    constructor
    · rw [(ih _ _).1, ((ih (restoreEntity s ap a).1 ((restoreEntity s ap a).2)).1).symm]
    · rw [(ih _ _).2, (ih (restoreEntity s ap a).1 ((restoreEntity s ap a).2)).2]
      simp [List.append_assoc]

theorem restoreSeq_coordinator (ap : Uid → Bool) :
    ∀ (l : List Uid) (s : SonosState) (tr : List Cmd) (v : Uid),
      ((restoreSeq ap (s, tr) l).1.dev v).coordinator =
        (s.dev v).coordinator := by
  intro l
  induction l with
  | nil => intro s tr v; rfl
  | cons a rest ih =>
    intro s tr v
    simp only [restoreSeq]
    rw [ih]
    exact restoreEntity_coordinator s ap a v

theorem restoreSeq_dev_not_mem (ap : Uid → Bool) :
    ∀ (l : List Uid) (s : SonosState) (tr : List Cmd) (v : Uid),
      v ∉ l → (restoreSeq ap (s, tr) l).1.dev v = s.dev v := by
  intro l
  induction l with
  | nil => intro s tr v _; rfl
  | cons a rest ih =>
    intro s tr v hv
    have hva : v ≠ a := fun he => hv (he ▸ List.mem_cons_self a rest)
    have hvr : v ∉ rest := fun he => hv (List.mem_cons_of_mem a he)
    simp only [restoreSeq]
    rw [ih _ _ v hvr]
    exact restoreEntity_dev_other s ap a v hva

theorem restoreSeq_cmds (ap : Uid → Bool) :
    ∀ (l : List Uid) (s : SonosState) (tr : List Cmd) (c : Cmd),
      c ∈ (restoreSeq ap (s, tr) l).2 →
      c ∈ tr ∨ ∃ e ∈ l, c = Cmd.snapRestore e ∨ c = Cmd.logWarn e := by
  intro l
  induction l with
  | nil => intro s tr c hc; exact Or.inl hc
  | cons a rest ih =>
    intro s tr c hc
    simp only [restoreSeq] at hc
    rcases ih _ _ c hc with h1 | ⟨e, he, hor⟩
    · rcases List.mem_append.1 h1 with h2 | h2
      · exact Or.inl h2
      · exact Or.inr ⟨a, List.mem_cons_self a rest,
          restoreEntity_cmds s ap a c h2⟩
    · exact Or.inr ⟨e, List.mem_cons_of_mem a he, hor⟩

theorem restoreSeq_trace_mono (ap : Uid → Bool) :
    ∀ (l : List Uid) (s : SonosState) (tr : List Cmd) (c : Cmd),
      c ∈ tr → c ∈ (restoreSeq ap (s, tr) l).2 := by
  intro l
  induction l with
  | nil => intro s tr c hc; exact hc
  | cons a rest ih =>
    intro s tr c hc
    simp only [restoreSeq]
    exact ih _ _ c (List.mem_append_left _ hc)

theorem restoreSeq_snap_mem (ap : Uid → Bool) :
    ∀ (l : List Uid) (s : SonosState) (tr : List Cmd) (u : Uid),
      l.Nodup → u ∈ l → (s.dev u).socoSnapshot = true →
      Cmd.snapRestore u ∈ (restoreSeq ap (s, tr) l).2 := by
  intro l
  induction l with
  | nil => intro s tr u _ hu; simp at hu
  | cons a rest ih =>
    intro s tr u hnd hu hsnap
    rcases List.mem_cons.1 hu with h1 | h1
    · subst h1
      simp only [restoreSeq]
      refine restoreSeq_trace_mono ap rest _ _ _ ?_
      refine List.mem_append_right _ ?_
      simp [restoreEntity, hsnap]
    · have hua : u ≠ a := by
        intro he
        subst he
        exact (List.nodup_cons.1 hnd).1 h1
      simp only [restoreSeq]
      refine ih _ _ u (List.nodup_cons.1 hnd).2 h1 ?_
      rw [restoreEntity_dev_other s ap a u hua]
      exact hsnap

theorem isCoordinator_restoreEntity (st : SonosState) (ap : Uid → Bool)
    (u e : Uid) :
    isCoordinator (restoreEntity st ap u).1 e = isCoordinator st e := by
  unfold isCoordinator
  rw [restoreEntity_coordinator]

theorem restorePlayers_decomp (sW : SonosState) (ents : List Uid)
    (ap : Uid → Bool) (hnd : ents.Nodup) :
    ∃ fT cT,
      (restorePlayers sW ents ap).2 = fT ++ cT ∧
      (∀ c ∈ fT, ∃ e ∈ ents, isCoordinator sW e = false ∧
        (c = Cmd.snapRestore e ∨ c = Cmd.logWarn e)) ∧
      (∀ c ∈ cT, ∃ e ∈ ents, isCoordinator sW e = true ∧
        (c = Cmd.snapRestore e ∨ c = Cmd.logWarn e)) ∧
      (∀ u ∈ ents, (sW.dev u).socoSnapshot = true →
        (isCoordinator sW u = false → Cmd.snapRestore u ∈ fT) ∧
        (isCoordinator sW u = true → Cmd.snapRestore u ∈ cT)) := by
  have hstable1 : ∀ st u e,
      (fun st e => !(isCoordinator st e)) (restoreEntity st ap u).1 e =
        (fun st e => !(isCoordinator st e)) st e := by
    intro st u e
    simp only [isCoordinator_restoreEntity]
  have hstable2 : ∀ st u e,
      (fun st e => isCoordinator st e) (restoreEntity st ap u).1 e =
        (fun st e => isCoordinator st e) st e := by
    intro st u e
    simp only [isCoordinator_restoreEntity]
  have hpl : restorePlayers sW ents ap =
      restorePass (fun st e => isCoordinator st e) ap
        (restorePass (fun st e => !(isCoordinator st e)) ap (sW, []) ents)
        ents := rfl
  have h1 : restorePass (fun st e => !(isCoordinator st e)) ap (sW, []) ents =
      restoreSeq ap (sW, [])
        (ents.filter (fun e => !(isCoordinator sW e))) :=
    restorePass_eq _ ap hstable1 ents sW []
  set F := ents.filter (fun e => !(isCoordinator sW e)) with hF
  set sMid := (restoreSeq ap (sW, []) F).1 with hsMid
  set fT := (restoreSeq ap (sW, []) F).2 with hfT
  have hpair : restoreSeq ap (sW, []) F = (sMid, fT) := rfl
  have h2 : restorePass (fun st e => isCoordinator st e) ap (sMid, fT) ents =
      restoreSeq ap (sMid, fT)
        (ents.filter (fun e => isCoordinator sMid e)) :=
    restorePass_eq _ ap hstable2 ents sMid fT
  have hcoordMid : ∀ e, isCoordinator sMid e = isCoordinator sW e := by
    intro e
    unfold isCoordinator
    rw [hsMid, restoreSeq_coordinator]
  have hfiltC : ents.filter (fun e => isCoordinator sMid e) =
      ents.filter (fun e => isCoordinator sW e) :=
    List.filter_congr (fun x _ => hcoordMid x)
  set C := ents.filter (fun e => isCoordinator sW e) with hC
  set cT := (restoreSeq ap (sMid, []) C).2 with hcT
  refine ⟨fT, cT, ?_, ?_, ?_, ?_⟩
  · rw [hpl, h1, hpair, h2, hfiltC]
    exact (restoreSeq_shift ap C sMid fT).2
  · intro c hc
    rcases restoreSeq_cmds ap F sW [] c (hfT ▸ hc) with h3 | ⟨e, he, hor⟩
    · simp at h3
    · have := List.mem_filter.mp he
      exact ⟨e, this.1, by simpa using this.2, hor⟩
  · intro c hc
    rcases restoreSeq_cmds ap C sMid [] c (hcT ▸ hc) with h3 | ⟨e, he, hor⟩
    · simp at h3
    · have := List.mem_filter.mp he
      exact ⟨e, this.1, by simpa using this.2, hor⟩
  · intro u hu hsnap
    constructor
    · intro hco
      have huF : u ∈ F := List.mem_filter.mpr ⟨hu, by simp [hco]⟩
      exact restoreSeq_snap_mem ap F sW [] u (hnd.filter _) huF hsnap
    · intro hco
      have huC : u ∈ C := List.mem_filter.mpr ⟨hu, by simp [hco]⟩
      have hunF : u ∉ F := by
        intro hin
        have := (List.mem_filter.mp hin).2
        simp [hco] at this
      have hdev : sMid.dev u = sW.dev u := by
        rw [hsMid]
        exact restoreSeq_dev_not_mem ap F sW [] u hunF
      exact restoreSeq_snap_mem ap C sMid [] u (hnd.filter _) huC
        (by rw [hdev]; exact hsnap)

theorem restoreGroups_spec (s : SonosState) (aff : List Uid)
    (hnd : aff.Nodup) :
    ∃ p2,
      (restoreGroups s aff true).2.1 = pausePhase s aff ++ p2 ∧
      (∀ c ∈ p2, (∃ u, c = Cmd.socoUnjoin u) ∨ ∃ a b, c = Cmd.socoJoin a b) ∧
      (∀ u ∈ aff, isCoordinator s u = false →
        snapGroupDiffers (s.dev u) = true → Cmd.socoUnjoin u ∈ p2) ∧
      (∀ a b, Cmd.socoJoin a b ∈ p2 →
        ∃ g, (s.dev b).snapshotGroup = some g ∧ g.head? = some b ∧
          a ∈ g ∧ a ≠ b) := by
  set slaves := aff.filter (fun e => !(isCoordinator s e)) with hslaves
  set r1 := unjoinSlavesLoop (s, []) slaves with hr1
  set r2 := rejoinLoop (r1.1, r1.2, []) aff with hr2
  have hshape : (restoreGroups s aff true).2.1 = pausePhase s aff ++ r2.2.1 := by
    simp only [restoreGroups, hslaves, hr1, hr2, if_pos]
  refine ⟨r2.2.1, hshape, ?_, ?_, ?_⟩
  · intro c hc
    have hc2 : c ∈ (rejoinLoop (r1.1, r1.2, []) aff).2.1 := by
      rw [hr2] at hc; exact hc
    rcases rejoinLoop_cmds aff r1.1 r1.2 [] c hc2 with h1 | ⟨e, _, g, _, _, hor⟩
    · rcases unjoinSlavesLoop_cmds slaves s [] c (hr1 ▸ h1) with h2 | ⟨e, _, hcmd⟩
      · simp at h2
      · exact Or.inl ⟨e, hcmd⟩
    · rcases hor with h3 | ⟨m, _, _, h3⟩
      · exact Or.inl ⟨e, h3⟩
      · exact Or.inr ⟨m, e, h3⟩
  · intro u hu hco hdiff
    have huS : u ∈ slaves := List.mem_filter.mpr ⟨hu, by simp [hco]⟩
    have h1 : Cmd.socoUnjoin u ∈ r1.2 := by
      rw [hr1]
      exact unjoinSlavesLoop_covers slaves s [] u huS (hnd.filter _) hdiff
    rw [hr2]
    exact rejoinLoop_trace_mono aff r1.1 r1.2 [] _ h1
  · intro a b hab
    have hab2 : Cmd.socoJoin a b ∈ (rejoinLoop (r1.1, r1.2, []) aff).2.1 := by
      rw [hr2] at hab; exact hab
    rcases rejoinLoop_cmds aff r1.1 r1.2 [] _ hab2 with h1 | ⟨e, _, g, hg, hh, hor⟩
    · rcases unjoinSlavesLoop_cmds slaves s [] _ (hr1 ▸ h1) with h2 | ⟨e, _, hcmd⟩
      · simp at h2
      · cases hcmd
    · rcases hor with h3 | ⟨m, hm, hmne, h3⟩
      · cases h3
      · have hme : m = a ∧ e = b := by
          constructor <;> injection h3 <;> simp_all
        obtain ⟨hma, heb⟩ := hme
        have hsg : (r1.1.dev e).snapshotGroup = (s.dev e).snapshotGroup := by
          rw [hr1]
          exact (unjoinSlavesLoop_fields slaves s [] e).1
        rw [hsg] at hg
        rw [← heb, ← hma]
        exact ⟨g, hg, hh, hm, hmne⟩

/-- Claim C4: restore_multi with with_group proceeds in three strictly
ordered phases: first a pause command for every affected coordinator that
is currently playing, then the group commands (unjoins of followers,
including every follower whose live group differs from its snapshotted
group, and join commands whose master is always the head of its own
snapshotted group), then the convergence wait, and only after it the
restore commands, with every restore of a post-wait follower issued before
any restore of a post-wait coordinator, and a restore issued for every
affected device still holding a snapshot. -/
theorem restoreMulti_three_phases (s : SonosState) (ents0 : List Uid)
    (observed : List SonosState) (applyOk : Uid → Bool) (w : WaitResult)
    (hw : wait_for_groups (restoreGroups s (affectedSet s ents0 true) true).1
        (restoreGroups s (affectedSet s ents0 true) true).2.2 observed
        = Except.ok w) :
    ∃ p2 fT cT,
      restoreMulti s ents0 true observed applyOk =
        Except.ok
          ((restorePlayers w.state (affectedSet s ents0 true) applyOk).1,
            pausePhase s (affectedSet s ents0 true)
              ++ (p2
                ++ Cmd.waitGroups
                    (restoreGroups s (affectedSet s ents0 true) true).2.2
                  :: (fT ++ cT))) ∧
      (∀ c ∈ p2, (∃ u, c = Cmd.socoUnjoin u) ∨ ∃ a b, c = Cmd.socoJoin a b) ∧
      (∀ u ∈ affectedSet s ents0 true, isCoordinator s u = false →
        snapGroupDiffers (s.dev u) = true → Cmd.socoUnjoin u ∈ p2) ∧
      (∀ a b, Cmd.socoJoin a b ∈ p2 →
        ∃ g, (s.dev b).snapshotGroup = some g ∧ g.head? = some b ∧
          a ∈ g ∧ a ≠ b) ∧
      (∀ c ∈ fT, ∃ e, isCoordinator w.state e = false ∧
        (c = Cmd.snapRestore e ∨ c = Cmd.logWarn e)) ∧
      (∀ c ∈ cT, ∃ e, isCoordinator w.state e = true ∧
        (c = Cmd.snapRestore e ∨ c = Cmd.logWarn e)) ∧
      (∀ u ∈ affectedSet s ents0 true, (w.state.dev u).socoSnapshot = true →
        Cmd.snapRestore u ∈ fT ++ cT) := by
  have hnd := affectedSet_nodup s ents0 true
  obtain ⟨p2, hp2eq, hcmds, hunj, hjoin⟩ :=
    restoreGroups_spec s (affectedSet s ents0 true) hnd
  obtain ⟨fT, cT, htr, hfc, hcc, hcov⟩ :=
    restorePlayers_decomp w.state (affectedSet s ents0 true) applyOk hnd
  refine ⟨p2, fT, cT, ?_, hcmds, hunj, hjoin,
    fun c hc => ((hfc c hc).imp (fun e he => ⟨he.2.1, he.2.2⟩)),
    fun c hc => ((hcc c hc).imp (fun e he => ⟨he.2.1, he.2.2⟩)), ?_⟩
  · simp only [restoreMulti]
    rw [hw]
    show Except.ok
        ((restorePlayers w.state (affectedSet s ents0 true) applyOk).1,
          (restoreGroups s (affectedSet s ents0 true) true).2.1
            ++ Cmd.waitGroups
                (restoreGroups s (affectedSet s ents0 true) true).2.2
              :: (restorePlayers w.state (affectedSet s ents0 true) applyOk).2)
      = _
    rw [hp2eq, htr, List.append_assoc]
  · intro u hu hsnap
    cases hco : isCoordinator w.state u
    · exact List.mem_append_left _ ((hcov u hu hsnap).1 hco)
    · exact List.mem_append_right _ ((hcov u hu hsnap).2 hco)

/-- Extracts the payload of a successful Except with a fallback value. -/
def exceptOkD {α : Type} (d : α) : Except Unit α → α
  | Except.ok a => a
  | Except.error _ => d

def wRM : SonosState :=
  ⟨[0], fun _ => { sonosGroup := [0], status := some "PLAYING",
                   socoSnapshot := true, snapshotGroup := some [0] }⟩

def wRMwait : WaitResult :=
  exceptOkD ⟨⟨[], fun _ => {}⟩, false, []⟩
    (wait_for_groups (restoreGroups wRM (affectedSet wRM [0] true) true).1
      (restoreGroups wRM (affectedSet wRM [0] true) true).2.2 [])

theorem restoreMulti_three_phases_witness :
    wait_for_groups (restoreGroups wRM (affectedSet wRM [0] true) true).1
      (restoreGroups wRM (affectedSet wRM [0] true) true).2.2 []
      = Except.ok wRMwait ∧
    (∃ p2 fT cT,
      restoreMulti wRM [0] true [] (fun _ => true) =
        Except.ok
          ((restorePlayers wRMwait.state (affectedSet wRM [0] true)
              (fun _ => true)).1,
            pausePhase wRM (affectedSet wRM [0] true)
              ++ (p2
                ++ Cmd.waitGroups
                    (restoreGroups wRM (affectedSet wRM [0] true) true).2.2
                  :: (fT ++ cT))) ∧
      (∀ c ∈ p2, (∃ u, c = Cmd.socoUnjoin u) ∨ ∃ a b, c = Cmd.socoJoin a b) ∧
      (∀ u ∈ affectedSet wRM [0] true, isCoordinator wRM u = false →
        snapGroupDiffers (wRM.dev u) = true → Cmd.socoUnjoin u ∈ p2) ∧
      (∀ a b, Cmd.socoJoin a b ∈ p2 →
        ∃ g, (wRM.dev b).snapshotGroup = some g ∧ g.head? = some b ∧
          a ∈ g ∧ a ≠ b) ∧
      (∀ c ∈ fT, ∃ e, isCoordinator wRMwait.state e = false ∧
        (c = Cmd.snapRestore e ∨ c = Cmd.logWarn e)) ∧
      (∀ c ∈ cT, ∃ e, isCoordinator wRMwait.state e = true ∧
        (c = Cmd.snapRestore e ∨ c = Cmd.logWarn e)) ∧
      (∀ u ∈ affectedSet wRM [0] true,
        (wRMwait.state.dev u).socoSnapshot = true →
        Cmd.snapRestore u ∈ fT ++ cT)) :=
  ⟨rfl, restoreMulti_three_phases wRM [0] [] (fun _ => true) wRMwait rfl⟩
